import Mathlib

/-!
# Cheetah compiler-runtime ABI (`runtime/cilk2c_inlined.c`)

A shallow embedding of the frame lifecycle, spawn/sync bracket, THE-protocol
pop and grainsize functions of `runtime/cilk2c_inlined.c`, together with the
`CILK_ASSERT` switch of `runtime/debug.h`.

Pointers to stack frames and fibers are natural-number handles, `0` being
`NULL`.  Deque cursors (`head`, `tail`, `exc`, `ltq_limit`) are integer slot
addresses.  The scheduler, the fiber subsystem and the personality hooks are
not part of these two files; they are the fields of `Ext`, each call being
recorded as an `Event` of the trace.
-/

namespace Cheetah

/-! ## Data model -/

/-- Constants and build switches declared in headers outside these sources
(`frame.h`, `rts-config.h`): the flag masks, the frame magic, and the
`CILK_DEBUG` and `USE_EXTENSION` switches. -/
structure Config where
  CILK_FRAME_STOLEN : Nat
  CILK_FRAME_UNSYNCHED : Nat
  CILK_FRAME_DETACHED : Nat
  CILK_FRAME_EXCEPTION_PENDING : Nat
  CILK_FRAME_LAST : Nat
  frame_magic : Nat
  CILK_DEBUG : Bool
  USE_EXTENSION : Bool

/-- The fields of `__cilkrts_stack_frame` the ABI reads or writes
(`flags` is a `uint32_t`; `ctx` is opaque and only reached through setjmp). -/
structure Frame where
  flags : Nat
  magic : Nat
  fh : Nat
  call_parent : Nat
  extension : Nat
deriving DecidableEq, Repr

/-- The fields of `__cilkrts_worker` the ABI reads or writes. -/
structure Worker where
  head : Int
  tail : Int
  exc : Int
  ltq_limit : Int
  extension : Nat
deriving DecidableEq, Repr

/-- Memory reachable from the ABI: the frame arena, each fiber's
`current_stack_frame`, the deque slots, the executing worker (the one
`get_worker_from_stack` yields) and the globals `__cilkrts_need_to_cilkify`,
`__cilkrts_current_fh` and `__cilkrts_nproc`. -/
structure State where
  frames : Nat → Frame
  current_stack_frame : Nat → Nat
  ltq : Int → Nat
  w : Worker
  need_to_cilkify : Bool
  current_fh : Nat
  nproc : Nat

/-- Calls that leave `cilk2c_inlined.c`, and the atomic deque accesses, in
program order. -/
inductive Event where
  | setjmp (sf : Nat)
  | sysdep_save_fp_ctrl_state (sf : Nat)
  | sanitizer_finish_switch_fiber
  | internal_invoke_cilkified_root (sf : Nat)
  | internal_exit_cilkified_root (sf : Nat)
  | cilkrts_sync (sf : Nat)
  | check_exception_raise (sf : Nat)
  | extend_spawn
  | extend_sync
  | extend_return_from_spawn
  | load_tail
  | store_tail (v : Int)
  | load_exc
  | Cilk_exception_handler (exn : Nat)
  | Cilk_set_return
  | cleanup_fiber (sf : Nat) (sel : Int)
  | cilkrts_bug
deriving DecidableEq, Repr

/-- The external collaborators.  A routine entered under `setjmp` that comes
back by `longjmp` is given by the state in which control resumes.
`check_exception_raise` yields `none` when it raises (control leaves through
the unwinder).  The personality hooks act on the extension slots they are
handed. -/
structure Ext where
  internal_invoke_cilkified_root : Nat → State → State
  internal_exit_cilkified_root : Nat → State → State
  cilkrts_sync : Nat → State → State
  check_exception_raise : Nat → State → Option State
  Cilk_exception_handler : Nat → State → State
  Cilk_set_return : State → State
  cleanup_fiber : Nat → Int → State → State
  extend_spawn : Nat → Nat → Nat × Nat
  extend_sync : Nat → Nat
  extend_return_from_spawn : Nat → Nat

/-- A machine state together with the events emitted so far. -/
structure Cfg where
  st : State
  trace : List Event

/-- How a call ends: it returns, it dies in `cilkrts_bug`, or control leaves
through the unwinder. -/
inductive Outcome where
  | ret (c : Cfg)
  | abort (c : Cfg)
  | unwind (c : Cfg)

/-- The configuration an outcome carries. -/
def Outcome.cfg : Outcome → Cfg
  | .ret c => c
  | .abort c => c
  | .unwind c => c

/-- Whether the call returned to its caller. -/
def Outcome.returned : Outcome → Bool
  | .ret _ => true
  | _ => false

/-- Whether the call died in `cilkrts_bug`. -/
def Outcome.aborted : Outcome → Bool
  | .abort _ => true
  | _ => false

/-- Sequencing: run `k` only when the first call returned. -/
def Outcome.andThen (o : Outcome) (k : Cfg → Outcome) : Outcome :=
  match o with
  | .ret c => k c
  | .abort c => .abort c
  | .unwind c => .unwind c

/-! ## Memory access helpers -/

/-- Append events to the trace. -/
def Cfg.emit (c : Cfg) (es : List Event) : Cfg :=
  { c with trace := c.trace ++ es }

/-- Apply an external state transformer. -/
def Cfg.call (c : Cfg) (f : State → State) : Cfg :=
  { c with st := f c.st }

/-- Write through a frame pointer. -/
def State.modFrame (s : State) (sf : Nat) (f : Frame → Frame) : State :=
  { s with frames := Function.update s.frames sf (f (s.frames sf)) }

/-- Write a fiber's `current_stack_frame`. -/
def State.setTop (s : State) (fh : Nat) (sf : Nat) : State :=
  { s with current_stack_frame := Function.update s.current_stack_frame fh sf }

/-- Write through a frame pointer, in a configuration. -/
def Cfg.modFrame (c : Cfg) (sf : Nat) (f : Frame → Frame) : Cfg :=
  { c with st := c.st.modFrame sf f }

/-- Write a fiber's `current_stack_frame`, in a configuration. -/
def Cfg.setTop (c : Cfg) (fh : Nat) (sf : Nat) : Cfg :=
  { c with st := c.st.setTop fh sf }

/-- The all-ones `uint32_t`. -/
def UINT32_MAX : Nat := 2 ^ 32 - 1

/-- The operation `flags &= ~mask` on a `uint32_t`. -/
def clearMask (flags mask : Nat) : Nat := flags &&& (UINT32_MAX ^^^ mask)

/-- The test `flags & mask`, as a C condition. -/
def hasFlag (flags mask : Nat) : Bool := flags &&& mask != 0

/-- Modelled from the spec: the macro `CHECK_CILK_FRAME_MAGIC(g, sf)` is
declared in `frame.h`, not among the sources; the magic tag validates when it
is the tag `enter_frame` stamps. -/
def CHECK_CILK_FRAME_MAGIC (C : Config) (s : State) (sf : Nat) : Bool :=
  (s.frames sf).magic == C.frame_magic

/-- The macro `CILK_ASSERT(ex)` of `debug.h`: with `CILK_DEBUG` a false
condition ends in `cilkrts_bug`; without it the macro expands to nothing. -/
def CILK_ASSERT (C : Config) (ex : Bool) (c : Cfg) (k : Cfg → Outcome) : Outcome :=
  if C.CILK_DEBUG && !ex then .abort (c.emit [.cilkrts_bug]) else k c

/-! ## Bootstrap handoff -/

/-- The routine `cilkify` (lines 68-78): the first return of `setjmp` saves
the floating-point state and hands the root frame to the scheduler; control
comes back through the second return, which finishes the fiber switch. -/
def cilkify (E : Ext) (sf : Nat) (c : Cfg) : Cfg :=
  ((c.emit [.setjmp sf, .sysdep_save_fp_ctrl_state sf,
      .internal_invoke_cilkified_root sf]).call
    (E.internal_invoke_cilkified_root sf)).emit [.sanitizer_finish_switch_fiber]

/-- The routine `uncilkify` (lines 84-96), the mirror image of `cilkify`. -/
def uncilkify (E : Ext) (sf : Nat) (c : Cfg) : Cfg :=
  ((c.emit [.setjmp sf, .sysdep_save_fp_ctrl_state sf,
      .internal_exit_cilkified_root sf]).call
    (E.internal_exit_cilkified_root sf)).emit [.sanitizer_finish_switch_fiber]

/-! ## Frame entry -/

/-- The routine `__cilkrts_enter_frame` (lines 100-116). -/
def __cilkrts_enter_frame (C : Config) (E : Ext) (sf : Nat) (c : Cfg) : Outcome :=
  let c := c.modFrame sf (fun f => { f with flags := 0 })
  let c := if c.st.need_to_cilkify then cilkify E sf c else c
  let c := c.modFrame sf (fun f => { f with magic := C.frame_magic })
  let fh := c.st.current_fh
  let c := c.modFrame sf (fun f => { f with fh := fh })
  let c := c.modFrame sf (fun f => { f with call_parent := c.st.current_stack_frame fh })
  .ret (c.setTop fh sf)

/-- The routine `__cilkrts_enter_frame_helper` (lines 122-136). -/
def __cilkrts_enter_frame_helper (C : Config) (sf parent : Nat) (spawner : Bool)
    (c : Cfg) : Outcome :=
  let c := c.modFrame sf (fun f => { f with flags := 0 })
  let c := c.modFrame sf (fun f => { f with magic := C.frame_magic })
  let fh := (c.st.frames parent).fh
  let c := c.modFrame sf (fun f => { f with fh := fh })
  if spawner then
    let c := c.modFrame sf (fun f => { f with call_parent := parent })
    .ret (c.setTop fh sf)
  else
    .ret c

/-! ## Spawn bracket -/

/-- The hook call `__cilkrts_extend_spawn(w, &parent->extension, &w->extension)`. -/
def extend_spawn (E : Ext) (parent : Nat) (c : Cfg) : Cfg :=
  let r := E.extend_spawn (c.st.frames parent).extension c.st.w.extension
  ((c.emit [.extend_spawn]).modFrame parent (fun f => { f with extension := r.1 })).call
    (fun s => { s with w := { s.w with extension := r.2 } })

/-- The routine `__cilkrts_detach` (lines 150-170). -/
def __cilkrts_detach (C : Config) (E : Ext) (sf parent : Nat) (c : Cfg) : Outcome :=
  CILK_ASSERT C (CHECK_CILK_FRAME_MAGIC C c.st sf) c fun c =>
  let c := if C.USE_EXTENSION then extend_spawn E parent c else c
  let c := c.modFrame sf (fun f => { f with flags := f.flags ||| C.CILK_FRAME_DETACHED })
  let c := c.emit [.load_tail]
  let tail := c.st.w.tail
  CILK_ASSERT C (decide (tail + 1 < c.st.w.ltq_limit)) c fun c =>
  let c := c.call (fun s => { s with ltq := Function.update s.ltq tail parent })
  let tail := tail + 1
  let c := c.call (fun s => { s with w := { s.w with tail := tail } })
  .ret (c.emit [.store_tail tail])

/-! ## Sync -/

/-- The hook call `__cilkrts_extend_sync(&w->extension)`. -/
def extend_sync (E : Ext) (c : Cfg) : Cfg :=
  (c.emit [.extend_sync]).call
    (fun s => { s with w := { s.w with extension := E.extend_sync s.w.extension } })

/-- The routine `__cilk_sync` (lines 172-190).  The first return of `setjmp`
enters `__cilkrts_sync`, which does not return; the strand resumes through
the second return of `setjmp`. -/
def __cilk_sync (C : Config) (E : Ext) (sf : Nat) (c : Cfg) : Outcome :=
  if hasFlag (c.st.frames sf).flags C.CILK_FRAME_UNSYNCHED || C.USE_EXTENSION then
    (if hasFlag (c.st.frames sf).flags C.CILK_FRAME_UNSYNCHED then
      let c := (c.emit [.setjmp sf, .sysdep_save_fp_ctrl_state sf, .cilkrts_sync sf]).call
        (E.cilkrts_sync sf)
      let c := c.emit [.sanitizer_finish_switch_fiber]
      if hasFlag (c.st.frames sf).flags C.CILK_FRAME_EXCEPTION_PENDING then
        let c := c.emit [.check_exception_raise sf]
        match E.check_exception_raise sf c.st with
        | some s => Outcome.ret { c with st := s }
        | none => Outcome.unwind c
      else
        Outcome.ret c
    else
      Outcome.ret c).andThen fun c =>
    if C.USE_EXTENSION then .ret (extend_sync E c) else .ret c
  else
    .ret c

/-- The routine `__cilk_sync_nothrow` (lines 192-208). -/
def __cilk_sync_nothrow (C : Config) (E : Ext) (sf : Nat) (c : Cfg) : Outcome :=
  if hasFlag (c.st.frames sf).flags C.CILK_FRAME_UNSYNCHED || C.USE_EXTENSION then
    (if hasFlag (c.st.frames sf).flags C.CILK_FRAME_UNSYNCHED then
      let c := (c.emit [.setjmp sf, .sysdep_save_fp_ctrl_state sf, .cilkrts_sync sf]).call
        (E.cilkrts_sync sf)
      let c := c.emit [.sanitizer_finish_switch_fiber]
      Outcome.ret c
    else
      Outcome.ret c).andThen fun c =>
    if C.USE_EXTENSION then .ret (extend_sync E c) else .ret c
  else
    .ret c

/-! ## Frame teardown -/

/-- The routine `__cilkrts_leave_frame` (lines 210-253). -/
def __cilkrts_leave_frame (C : Config) (E : Ext) (sf : Nat) (c : Cfg) : Outcome :=
  CILK_ASSERT C (CHECK_CILK_FRAME_MAGIC C c.st sf) c fun c =>
  let parent := (c.st.frames sf).call_parent
  let c := c.setTop (c.st.frames sf).fh parent
  let c := c.modFrame sf (fun f => { f with call_parent := 0 })
  let flags := (c.st.frames sf).flags
  let c := if hasFlag flags C.CILK_FRAME_LAST then uncilkify E sf c else c
  let flags := if hasFlag flags C.CILK_FRAME_LAST then (c.st.frames sf).flags else flags
  if flags == 0 then
    .ret c
  else
    CILK_ASSERT C (!hasFlag flags C.CILK_FRAME_DETACHED) c fun c =>
    if hasFlag flags C.CILK_FRAME_STOLEN then
      let c := (c.emit [.Cilk_set_return]).call E.Cilk_set_return
      CILK_ASSERT C (CHECK_CILK_FRAME_MAGIC C c.st sf) c fun c => .ret c
    else
      .ret c

/-- The hook call `__cilkrts_extend_return_from_spawn(w, &w->extension)`
followed by `w->extension = parent->extension`. -/
def extend_return_from_spawn (E : Ext) (parent : Nat) (c : Cfg) : Cfg :=
  let c := (c.emit [.extend_return_from_spawn]).call
    (fun s => { s with w := { s.w with extension := E.extend_return_from_spawn s.w.extension } })
  c.call (fun s => { s with w := { s.w with extension := (s.frames parent).extension } })

/-- The routine `__cilkrts_leave_frame_helper` (lines 255-294). -/
def __cilkrts_leave_frame_helper (C : Config) (E : Ext) (sf parent : Nat) (spawner : Bool)
    (c : Cfg) : Outcome :=
  CILK_ASSERT C (CHECK_CILK_FRAME_MAGIC C c.st sf) c fun c =>
  let c := if spawner then c.setTop (c.st.frames sf).fh parent else c
  let c := if C.USE_EXTENSION then extend_return_from_spawn E parent c else c
  let c := c.modFrame sf (fun f => { f with call_parent := 0 })
  CILK_ASSERT C (hasFlag (c.st.frames sf).flags C.CILK_FRAME_DETACHED) c fun c =>
  let c := c.emit [.load_tail]
  let tail := c.st.w.tail - 1
  let c := (c.call (fun s => { s with w := { s.w with tail := tail } })).emit [.store_tail tail]
  let c := c.emit [.load_exc]
  let exc := c.st.w.exc
  let c := c.modFrame sf (fun f => { f with flags := clearMask f.flags C.CILK_FRAME_DETACHED })
  if exc > tail then
    .ret ((c.emit [.Cilk_exception_handler 0]).call (E.Cilk_exception_handler 0))
  else
    .ret c

/-- The routine `__cilkrts_pause_frame` (lines 322-365).  Whether
`__cilkrts_cleanup_fiber` returns or jumps back to the saved context, control
continues after the conditional. -/
def __cilkrts_pause_frame (C : Config) (E : Ext) (sf parent exn : Nat) (spawner : Bool)
    (c : Cfg) : Outcome :=
  let c := (c.emit [.setjmp sf, .cleanup_fiber sf 1]).call (E.cleanup_fiber sf 1)
  CILK_ASSERT C (CHECK_CILK_FRAME_MAGIC C c.st sf) c fun c =>
  let c := if spawner then c.setTop (c.st.frames sf).fh parent else c
  let c := c.modFrame sf (fun f => { f with call_parent := 0 })
  if hasFlag (c.st.frames sf).flags C.CILK_FRAME_DETACHED then
    let c := if C.USE_EXTENSION then extend_return_from_spawn E parent c else c
    let c := c.emit [.load_tail]
    let tail := c.st.w.tail - 1
    let c := (c.call (fun s => { s with w := { s.w with tail := tail } })).emit [.store_tail tail]
    let c := c.emit [.load_exc]
    let exc := c.st.w.exc
    let c := c.modFrame sf (fun f => { f with flags := clearMask f.flags C.CILK_FRAME_DETACHED })
    if exc > tail then
      .ret ((c.emit [.Cilk_exception_handler exn]).call (E.Cilk_exception_handler exn))
    else
      .ret c
  else
    .ret c

/-! ## Grainsize -/

/-- The body generated by `__cilkrts_grainsize_fn_impl(NAME, INT_T)` (lines
377-386) for an unsigned type of `bits` bits.  `8 * __cilkrts_nproc` is an
`unsigned` product; a zero divisor has no defined result. -/
def __cilkrts_grainsize_fn_impl (bits : Nat) (nproc : Nat) (n : Nat) : Option Nat :=
  let d := 8 * nproc % 2 ^ 32
  if d = 0 then none
  else
    let small_loop_grainsize := n / d % 2 ^ bits
    if small_loop_grainsize ≤ 1 then some 1
    else
      let large_loop_grainsize := 2048 % 2 ^ bits
      some (if large_loop_grainsize < small_loop_grainsize then large_loop_grainsize
        else small_loop_grainsize)

/-- The function `__cilkrts_cilk_for_grainsize_8` (lines 390-396). -/
def __cilkrts_cilk_for_grainsize_8 (nproc : Nat) (n : Nat) : Option Nat :=
  let d := 8 * nproc % 2 ^ 32
  if d = 0 then none
  else
    let small_loop_grainsize := n / d % 2 ^ 8
    if small_loop_grainsize ≤ 1 then some 1 else some small_loop_grainsize

/-- The instance `__cilkrts_grainsize_fn(16)`. -/
def __cilkrts_cilk_for_grainsize_16 (nproc : Nat) (n : Nat) : Option Nat :=
  __cilkrts_grainsize_fn_impl 16 nproc n

/-- The instance `__cilkrts_grainsize_fn(32)`. -/
def __cilkrts_cilk_for_grainsize_32 (nproc : Nat) (n : Nat) : Option Nat :=
  __cilkrts_grainsize_fn_impl 32 nproc n

/-- The instance `__cilkrts_grainsize_fn(64)`. -/
def __cilkrts_cilk_for_grainsize_64 (nproc : Nat) (n : Nat) : Option Nat :=
  __cilkrts_grainsize_fn_impl 64 nproc n

/-! ## Concrete configurations used to exercise the model -/

/-- A build with assertions on and the personality extension off; the masks
are distinct single bits. -/
def debugConfig : Config :=
  { CILK_FRAME_STOLEN := 1, CILK_FRAME_UNSYNCHED := 2, CILK_FRAME_DETACHED := 4,
    CILK_FRAME_EXCEPTION_PENDING := 8, CILK_FRAME_LAST := 128,
    frame_magic := 51966, CILK_DEBUG := true, USE_EXTENSION := false }

/-- The same build with `CILK_DEBUG` off. -/
def releaseConfig : Config := { debugConfig with CILK_DEBUG := false }

/-- Collaborators that leave the state as it is. -/
def idleExt : Ext :=
  { internal_invoke_cilkified_root := fun _ s => s
    internal_exit_cilkified_root := fun _ s => s
    cilkrts_sync := fun _ s => s
    check_exception_raise := fun _ s => some s
    Cilk_exception_handler := fun _ s => s
    Cilk_set_return := fun s => s
    cleanup_fiber := fun _ _ s => s
    extend_spawn := fun p w => (p, w)
    extend_sync := fun w => w
    extend_return_from_spawn := fun w => w }

/-- A frame with the given flags, validly tagged for `debugConfig`, on fiber 1. -/
def mkFrame (flags : Nat) : Frame :=
  { flags := flags, magic := 51966, fh := 1, call_parent := 0, extension := 0 }

/-- A state inside a region: every frame carries `flags`, fiber 1 is current
and its stack is empty, the deque is empty with sixteen slots. -/
def mkState (flags : Nat) : State :=
  { frames := fun _ => mkFrame flags
    current_stack_frame := fun _ => 0
    ltq := fun _ => 0
    w := { head := 0, tail := 0, exc := 0, ltq_limit := 16, extension := 0 }
    need_to_cilkify := false
    current_fh := 1
    nproc := 4 }

/-- A configuration with an empty trace. -/
def mkCfg (flags : Nat) : Cfg := { st := mkState flags, trace := [] }

/-! ## Vocabulary for the statements -/

/-- The events a call added to the trace it started from. -/
def newEvents (c : Cfg) (o : Outcome) : List Event :=
  o.cfg.trace.drop c.trace.length

/-- The configuration in which a strand resumes from the scheduler's wait:
`setjmp`, the floating-point save and `__cilkrts_sync` on the first return,
`sanitizer_finish_switch_fiber` on the second. -/
def sync_resumed (E : Ext) (sf : Nat) (c : Cfg) : Cfg :=
  ((c.emit [.setjmp sf, .sysdep_save_fp_ctrl_state sf, .cilkrts_sync sf]).call
    (E.cilkrts_sync sf)).emit [.sanitizer_finish_switch_fiber]

/-- The personality hook that closes both sync variants. -/
def sync_epilogue (C : Config) (E : Ext) (c : Cfg) : Outcome :=
  if C.USE_EXTENSION then .ret (extend_sync E c) else .ret c

/-- Collaborators whose scheduler entries store `fl` into the flags of the
frame they are handed, and whose exception re-raise unwinds. -/
def stampExt (fl : Nat) : Ext :=
  { idleExt with
    internal_invoke_cilkified_root := fun sf s => s.modFrame sf (fun f => { f with flags := fl })
    internal_exit_cilkified_root := fun sf s => s.modFrame sf (fun f => { f with flags := fl })
    cilkrts_sync := fun sf s => s.modFrame sf (fun f => { f with flags := fl })
    check_exception_raise := fun _ _ => none }

/-- The state `leave_frame` reaches once it has popped `sf` off the cactus
stack (lines 219-225). -/
def leave_frame_popped (sf : Nat) (c : Cfg) : Cfg :=
  (c.setTop (c.st.frames sf).fh (c.st.frames sf).call_parent).modFrame sf
    (fun f => { f with call_parent := 0 })

/-- The state in which `leave_frame` settles the flags it goes on to test:
after the uncilkify handoff when LAST was set at entry, right after the pop
otherwise (lines 229-233). -/
def leave_frame_handoff (C : Config) (E : Ext) (sf : Nat) (c : Cfg) : Cfg :=
  if hasFlag (c.st.frames sf).flags C.CILK_FRAME_LAST then
    uncilkify E sf (leave_frame_popped sf c)
  else
    leave_frame_popped sf c

/-- A configuration in which no frame was ever entered: every magic tag is
`0`, which does not validate under `debugConfig` or `releaseConfig`. -/
def staleCfg (flags : Nat) : Cfg :=
  { st := { mkState flags with frames := fun _ => { mkFrame flags with magic := 0 } }
    trace := [] }

/-- The state a spawn helper's teardown has reached when the THE check is
decided: the cactus-stack pointer rewound when `spawner`, `call_parent`
cleared, DETACHED cleared, the tail one slot lower, and the worker's extension
taken from `parent` when the personality extension is on. -/
def helper_pop (C : Config) (sf parent : Nat) (spawner : Bool) (s : State) : State :=
  { s with
    frames := Function.update s.frames sf
      { s.frames sf with
        call_parent := 0
        flags := clearMask (s.frames sf).flags C.CILK_FRAME_DETACHED }
    current_stack_frame :=
      if spawner then Function.update s.current_stack_frame (s.frames sf).fh parent
      else s.current_stack_frame
    w := { s.w with
      tail := s.w.tail - 1
      extension := if C.USE_EXTENSION then (s.frames parent).extension else s.w.extension } }

/-- The events of the pop: the personality hook when enabled, then the tail
load, the tail store and the `exc` load, in that order. -/
def the_events (C : Config) (tail : Int) : List Event :=
  (if C.USE_EXTENSION then [Event.extend_return_from_spawn] else []) ++
    [.load_tail, .store_tail tail, .load_exc]

/-- The configuration a spawn helper's teardown ends in: `helper_pop`, handed
to `Cilk_exception_handler` with `exn` exactly when the loaded `exc` is above
the new tail. -/
def helper_result (C : Config) (E : Ext) (sf parent : Nat) (spawner : Bool) (exn : Nat)
    (c : Cfg) : Cfg :=
  if c.st.w.exc > c.st.w.tail - 1 then
    { st := E.Cilk_exception_handler exn (helper_pop C sf parent spawner c.st)
      trace := c.trace ++ the_events C (c.st.w.tail - 1) ++ [.Cilk_exception_handler exn] }
  else
    { st := helper_pop C sf parent spawner c.st
      trace := c.trace ++ the_events C (c.st.w.tail - 1) }

/-- The configuration in which `pause_frame` reaches its magic assertion:
`setjmp` and `__cilkrts_cleanup_fiber(sf, 1)` have run (lines 325-326). -/
def pause_frame_entered (E : Ext) (sf : Nat) (c : Cfg) : Cfg :=
  (c.emit [.setjmp sf, .cleanup_fiber sf 1]).call (E.cleanup_fiber sf 1)

/-! ## Call sequences and the cactus stack -/

/-- The calls generated code brackets a spawning function and a spawn helper
with. -/
inductive Call where
  | enter_frame (sf : Nat)
  | enter_frame_helper (sf parent : Nat) (spawner : Bool)
  | detach (sf parent : Nat)
  | leave_frame (sf : Nat)
  | leave_frame_helper (sf parent : Nat) (spawner : Bool)
deriving DecidableEq, Repr

/-- Run one call. -/
def Call.run (C : Config) (E : Ext) : Call → Cfg → Outcome
  | .enter_frame sf => __cilkrts_enter_frame C E sf
  | .enter_frame_helper sf parent spawner => __cilkrts_enter_frame_helper C sf parent spawner
  | .detach sf parent => __cilkrts_detach C E sf parent
  | .leave_frame sf => __cilkrts_leave_frame C E sf
  | .leave_frame_helper sf parent spawner => __cilkrts_leave_frame_helper C E sf parent spawner

/-- Run a sequence of calls, stopping at the first that does not return. -/
def runCalls (C : Config) (E : Ext) : List Call → Cfg → Outcome
  | [], c => .ret c
  | k :: ks, c => (k.run C E c).andThen (runCalls C E ks)

/-- How a frame was entered: by `enter_frame`, or by `enter_frame_helper` with
the given parent and `spawner` argument. -/
inductive Shape where
  | func
  | helper (parent : Nat) (spawner : Bool)
deriving DecidableEq, Repr

/-- A frame that was entered and not yet left. -/
structure Open where
  sf : Nat
  shape : Shape
deriving DecidableEq, Repr

/-- Whether entering the frame linked it into the cactus stack. -/
def Open.linked (o : Open) : Bool :=
  match o.shape with
  | .func => true
  | .helper _ spawner => spawner

/-- The frames entered and not yet left, innermost first. -/
def enteredFrames (g : List Open) : List Nat := g.map Open.sf

/-- The frames entered by `enter_frame`, or by `enter_frame_helper` with
`spawner`, and not yet left, innermost first. -/
def linkedFrames (g : List Open) : List Nat := (g.filter Open.linked).map Open.sf

/-- The bracketing convention for one call, given the frames open so far: a
frame is entered while not open, a helper names the innermost linked frame as
its parent, `detach` and the leave calls address the innermost open frame
with the arguments it was entered with.  `none` when the call breaks the
convention. -/
def convention (g : List Open) : Call → Option (List Open)
  | .enter_frame sf =>
      if sf ≠ 0 ∧ sf ∉ enteredFrames g then some (⟨sf, .func⟩ :: g) else none
  | .enter_frame_helper sf parent spawner =>
      if sf ≠ 0 ∧ sf ∉ enteredFrames g ∧ (linkedFrames g).head? = some parent then
        some (⟨sf, .helper parent spawner⟩ :: g)
      else none
  | .detach sf parent =>
      match g with
      | ⟨x, .helper p _⟩ :: _ => if x = sf ∧ p = parent then some g else none
      | _ => none
  | .leave_frame sf =>
      match g with
      | ⟨x, .func⟩ :: rest => if x = sf then some rest else none
      | _ => none
  | .leave_frame_helper sf parent spawner =>
      match g with
      | ⟨x, .helper p s⟩ :: rest =>
          if x = sf ∧ p = parent ∧ s = spawner then some rest else none
      | _ => none

/-- The bracketing convention for a sequence of calls. -/
def conventionAll (g : List Open) : List Call → Option (List Open)
  | [] => some g
  | k :: ks => (convention g k).bind fun g1 => conventionAll g1 ks

/-- Follow `call_parent` from `p` until `NULL`, for at most `fuel` frames. -/
def chainFrom (s : State) : Nat → Nat → Option (List Nat)
  | _, 0 => some []
  | 0, _ + 1 => none
  | fuel + 1, p + 1 =>
      (chainFrom s fuel (s.frames (p + 1)).call_parent).map fun l => (p + 1) :: l

/-- The pointers that make up the cactus stack: every frame's `call_parent`
and `fh`, every fiber's `current_stack_frame`, and `__cilkrts_current_fh`. -/
structure Links where
  call_parent : Nat → Nat
  fh : Nat → Nat
  top : Nat → Nat
  current_fh : Nat

/-- The cactus-stack pointers of a state. -/
def State.links (s : State) : Links :=
  { call_parent := fun x => (s.frames x).call_parent
    fh := fun x => (s.frames x).fh
    top := s.current_stack_frame
    current_fh := s.current_fh }

/-- The scheduler entries reached from the bracket calls leave the
cactus-stack pointers as they are. -/
def LinkPreserving (E : Ext) : Prop :=
  (∀ sf s, (E.internal_invoke_cilkified_root sf s).links = s.links) ∧
  (∀ sf s, (E.internal_exit_cilkified_root sf s).links = s.links) ∧
  (∀ exn s, (E.Cilk_exception_handler exn s).links = s.links) ∧
  (∀ s, (E.Cilk_set_return s).links = s.links)

/-- The relation `IsChain cp p l`: following `cp` from `p` visits exactly the
frames of `l`, in order, and then reaches `NULL`. -/
def IsChain (cp : Nat → Nat) (p : Nat) : List Nat → Prop
  | [] => p = 0
  | x :: xs => p = x ∧ IsChain cp (cp x) xs

/-- The state of fiber `F` agrees with the open frames `g`: `F` is the current
fiber, no frame is open twice and `NULL` is not open, every open frame is
attached to `F`, a linked helper still points to the parent it was entered
with, and the `call_parent` chain from the top of `F` is the linked frames. -/
def CactusInv (F : Nat) (L : Links) (g : List Open) : Prop :=
  L.current_fh = F ∧
  (enteredFrames g).Nodup ∧
  0 ∉ enteredFrames g ∧
  (∀ o ∈ g, L.fh o.sf = F) ∧
  (∀ o ∈ g, ∀ p, o.shape = .helper p true → L.call_parent o.sf = p) ∧
  IsChain L.call_parent (L.top F) (linkedFrames g)

/-- A conventional run: a spawning function (frame 1) enters a linked helper
(frame 2), which detaches and enters an unlinked helper (frame 3), which
detaches. -/
def sampleEnter : List Call :=
  [.enter_frame 1, .enter_frame_helper 2 1 true, .detach 2 1,
    .enter_frame_helper 3 2 false, .detach 3 2]

/-- The calls that close `sampleEnter`, innermost frame first. -/
def sampleLeave : List Call :=
  [.leave_frame_helper 3 2 false, .leave_frame_helper 2 1 true, .leave_frame 1]

/-- A configuration outside any parallel region: `__cilkrts_need_to_cilkify`
is set. -/
def outsideCfg (flags : Nat) : Cfg :=
  { st := { mkState flags with need_to_cilkify := true }, trace := [] }

/-- The configuration in which `enter_frame` stamps the magic tag: the flags
of `sf` were cleared, then the bootstrap handoff ran if no region was active
(lines 102-105). -/
def enter_frame_bootstrapped (E : Ext) (sf : Nat) (c : Cfg) : Cfg :=
  if (c.modFrame sf (fun f => { f with flags := 0 })).st.need_to_cilkify then
    cilkify E sf (c.modFrame sf (fun f => { f with flags := 0 }))
  else
    c.modFrame sf (fun f => { f with flags := 0 })

/-! ## Hyperobject lookup -/

/-- Modelled from the spec: a bucket of the hyperobject table (its declaration
is in `local-reducer-api.h`, not among the sources): the reducer address it is
keyed by, the view pointer and the reduce function. -/
structure bucket where
  key : Nat
  view : Nat
  reduce_fn : Nat
deriving DecidableEq, Repr

/-- Modelled from the spec: the per-worker table `struct local_hyper_table`, a
mapping keyed by reducer address, as the list of its buckets. -/
structure local_hyper_table where
  buckets : List bucket
deriving DecidableEq, Repr

/-- One allocation of a view: its pointer, its size in bytes, and the identity
function that initialised it. -/
structure ViewInit where
  view : Nat
  size : Nat
  identity_fn : Nat
deriving DecidableEq, Repr

/-- What `__cilkrts_reducer_lookup` can reach: `__cilkrts_need_to_cilkify`, the
calling worker's table, and the views allocated and identity-initialised so
far. -/
structure HyperState where
  need_to_cilkify : Bool
  table : local_hyper_table
  inits : List ViewInit
deriving DecidableEq, Repr

/-- Modelled from the spec: `find_hyperobject(table, key)`, not among the
sources, looks `key` up in the table and yields its bucket on a hit. -/
def find_hyperobject (table : local_hyper_table) (key : Nat) : Option bucket :=
  table.buckets.find? fun b => b.key == key

/-- Modelled from the spec: `__cilkrts_insert_new_view`, not among the sources,
allocates a view of `size` bytes, initialises it via `identity_fn`, registers
it keyed by `key` together with `reduce_fn`, and returns the new view.  The
allocator `alloc` picks the pointer from the number of views made so far and
the size. -/
def __cilkrts_insert_new_view (alloc : Nat → Nat → Nat) (h : HyperState)
    (key size identity_fn reduce_fn : Nat) : Nat × HyperState :=
  let view := alloc h.inits.length size
  (view,
    { h with
      table := { buckets := { key := key, view := view, reduce_fn := reduce_fn } ::
        h.table.buckets }
      inits := h.inits ++ [{ view := view, size := size, identity_fn := identity_fn }] })

/-- The routine `__cilkrts_reducer_lookup` (lines 48-63). -/
def __cilkrts_reducer_lookup (alloc : Nat → Nat → Nat) (key size identity_ptr reduce_ptr : Nat)
    (h : HyperState) : Nat × HyperState :=
  if h.need_to_cilkify then (key, h)
  else
    match find_hyperobject h.table key with
    | some b => (b.view, h)
    | none => __cilkrts_insert_new_view alloc h key size identity_ptr reduce_ptr

/-- A worker's table holding one reducer: key 100 with view 900. -/
def sampleTable : local_hyper_table :=
  { buckets := [{ key := 100, view := 900, reduce_fn := 5 }] }

/-- An allocator handing out pointers 1000, 1001, ... -/
def sampleAlloc (n : Nat) (_size : Nat) : Nat := 1000 + n

/-- The configuration `pause_frame` is in once it has popped `sf` off the
cactus stack (lines 336-338): from the state `__cilkrts_cleanup_fiber` handed
back, the fiber's top frame is reset to `parent` when `spawner`, and
`sf.call_parent` is cleared. -/
def pause_frame_popped (E : Ext) (sf parent : Nat) (spawner : Bool) (c : Cfg) : Cfg :=
  (if spawner then
      (pause_frame_entered E sf c).setTop ((pause_frame_entered E sf c).st.frames sf).fh parent
    else pause_frame_entered E sf c).modFrame sf (fun f => { f with call_parent := 0 })

/-- A configuration in which a spawning function (frame 1) has entered a
linked spawn helper (frame 2) that has not detached yet. -/
def helperEnteredCfg : Cfg :=
  (runCalls debugConfig idleExt [.enter_frame 1, .enter_frame_helper 2 1 true] (mkCfg 0)).cfg

/-! ## Bit-level facts about flag words -/

theorem clearMask_setMask (f D : Nat) (hf : f < 2 ^ 32) (hD : D < 2 ^ 32)
    (h : f &&& D = 0) : clearMask (f ||| D) D = f := by
  unfold clearMask UINT32_MAX
  apply Nat.eq_of_testBit_eq
  intro i
  have h1 : (f &&& D).testBit i = false := by rw [h]; simp
  rw [Nat.testBit_and] at h1
  rw [Nat.testBit_and, Nat.testBit_or, Nat.testBit_xor, Nat.testBit_two_pow_sub_one]
  by_cases hi : i < 32
  · simp [hi]
    cases hfi : f.testBit i <;> cases hDi : D.testBit i <;> simp_all
  · have hi2 : 2 ^ 32 ≤ 2 ^ i := Nat.pow_le_pow_right (by norm_num) (by omega)
    have : f.testBit i = false := Nat.testBit_lt_two_pow (lt_of_lt_of_le hf hi2)
    have : D.testBit i = false := Nat.testBit_lt_two_pow (lt_of_lt_of_le hD hi2)
    simp_all

theorem clearMask_and (f D : Nat) (hf : f < 2 ^ 32) : clearMask f D &&& D = 0 := by
  unfold clearMask UINT32_MAX
  apply Nat.eq_of_testBit_eq
  intro i
  rw [Nat.testBit_and, Nat.testBit_and, Nat.testBit_xor, Nat.testBit_two_pow_sub_one]
  by_cases hi : i < 32
  · cases hfi : f.testBit i <;> cases hDi : D.testBit i <;> simp [hi]
  · have hi2 : 2 ^ 32 ≤ 2 ^ i := Nat.pow_le_pow_right (by norm_num) (by omega)
    have : f.testBit i = false := Nat.testBit_lt_two_pow (lt_of_lt_of_le hf hi2)
    simp [this]

theorem setMask_and (f D : Nat) : (f ||| D) &&& D = D := by
  apply Nat.eq_of_testBit_eq
  intro i
  rw [Nat.testBit_and, Nat.testBit_or]
  cases hfi : f.testBit i <;> cases hDi : D.testBit i <;> simp

/-! ## Frame entry -/

/-- C17: `enter_frame_helper(sf, parent, spawner)` always returns, having
cleared the flags of `sf`, stamped the valid magic tag and attached `sf` to the
fiber of `parent`.  With `spawner` it sets `sf.call_parent = parent` and makes
`sf` the top frame of that fiber; without `spawner` it leaves `sf.call_parent`
and every fiber's top frame as they were.  No other frame is written, nothing
is emitted. -/
theorem enter_frame_helper_links_iff_spawner (C : Config) (sf parent : Nat)
    (spawner : Bool) (c : Cfg) :
    ∃ r : Cfg, __cilkrts_enter_frame_helper C sf parent spawner c = Outcome.ret r ∧
      (r.st.frames sf).flags = 0 ∧
      (r.st.frames sf).magic = C.frame_magic ∧
      (r.st.frames sf).fh = (c.st.frames parent).fh ∧
      (spawner = true →
        (r.st.frames sf).call_parent = parent ∧
        r.st.current_stack_frame (c.st.frames parent).fh = sf ∧
        ∀ fh, fh ≠ (c.st.frames parent).fh →
          r.st.current_stack_frame fh = c.st.current_stack_frame fh) ∧
      (spawner = false →
        (r.st.frames sf).call_parent = (c.st.frames sf).call_parent ∧
        r.st.current_stack_frame = c.st.current_stack_frame) ∧
      (∀ x, x ≠ sf → r.st.frames x = c.st.frames x) ∧
      r.trace = c.trace := by
  by_cases hp : parent = sf
  · cases spawner <;>
      simp [__cilkrts_enter_frame_helper, Cfg.modFrame, State.modFrame, Cfg.setTop,
        State.setTop, Function.update, hp]
    · intro x hx hx2; exact absurd hx2 hx
    · refine ⟨?_, ?_⟩
      · intro fh hfh hfh2; exact absurd hfh2 hfh
      · intro x hx hx2; exact absurd hx2 hx
  · cases spawner <;>
      simp [__cilkrts_enter_frame_helper, Cfg.modFrame, State.modFrame, Cfg.setTop,
        State.setTop, Function.update, hp]
    · intro x hx hx2; exact absurd hx2 hx
    · refine ⟨?_, ?_⟩
      · intro fh hfh hfh2; exact absurd hfh2 hfh
      · intro x hx hx2; exact absurd hx2 hx

/-! ## Sync -/

/-- C18: on a frame with UNSYNCHED set, `sync_nothrow` is the resume sequence
followed by the personality hook.  `sync` is the same when EXCEPTION_PENDING
is clear in the resumed frame, and otherwise inserts exactly one call of the
exception re-raise between the fiber-switch bookkeeping and the hook (which
is skipped when the re-raise unwinds).  The re-raise is among the events of
`sync` if and only if EXCEPTION_PENDING is set on resume, and never among the
events of `sync_nothrow`. -/
theorem sync_and_sync_nothrow_differ_only_by_reraise (C : Config) (E : Ext) (sf : Nat)
    (c : Cfg) (hU : hasFlag (c.st.frames sf).flags C.CILK_FRAME_UNSYNCHED = true) :
    __cilk_sync_nothrow C E sf c = sync_epilogue C E (sync_resumed E sf c) ∧
    (hasFlag ((sync_resumed E sf c).st.frames sf).flags C.CILK_FRAME_EXCEPTION_PENDING = false →
      __cilk_sync C E sf c = __cilk_sync_nothrow C E sf c) ∧
    (hasFlag ((sync_resumed E sf c).st.frames sf).flags C.CILK_FRAME_EXCEPTION_PENDING = true →
      __cilk_sync C E sf c =
        match E.check_exception_raise sf (sync_resumed E sf c).st with
        | some s => sync_epilogue C E
            { st := s, trace := (sync_resumed E sf c).trace ++ [.check_exception_raise sf] }
        | none => Outcome.unwind ((sync_resumed E sf c).emit [.check_exception_raise sf])) ∧
    (Event.check_exception_raise sf ∈ newEvents c (__cilk_sync C E sf c) ↔
      hasFlag ((sync_resumed E sf c).st.frames sf).flags C.CILK_FRAME_EXCEPTION_PENDING = true) ∧
    Event.check_exception_raise sf ∉ newEvents c (__cilk_sync_nothrow C E sf c) := by
  have hnothrow : __cilk_sync_nothrow C E sf c = sync_epilogue C E (sync_resumed E sf c) := by
    simp [__cilk_sync_nothrow, hU, Outcome.andThen, sync_epilogue, sync_resumed]
  have hclear : hasFlag ((sync_resumed E sf c).st.frames sf).flags
      C.CILK_FRAME_EXCEPTION_PENDING = false →
      __cilk_sync C E sf c = __cilk_sync_nothrow C E sf c := by
    intro hP
    rw [hnothrow]
    simp only [sync_resumed] at hP
    simp [__cilk_sync, hU, hP, Outcome.andThen, sync_epilogue, sync_resumed]
  have hset : hasFlag ((sync_resumed E sf c).st.frames sf).flags
      C.CILK_FRAME_EXCEPTION_PENDING = true →
      __cilk_sync C E sf c =
        match E.check_exception_raise sf (sync_resumed E sf c).st with
        | some s => sync_epilogue C E
            { st := s, trace := (sync_resumed E sf c).trace ++ [.check_exception_raise sf] }
        | none => Outcome.unwind ((sync_resumed E sf c).emit [.check_exception_raise sf]) := by
    intro hP
    simp only [sync_resumed] at hP
    simp only [__cilk_sync, hU, Bool.true_or, if_true, hP, sync_resumed, sync_epilogue]
    cases hr : E.check_exception_raise sf
        ((c.emit [.setjmp sf, .sysdep_save_fp_ctrl_state sf, .cilkrts_sync sf]).call
          (E.cilkrts_sync sf)).st <;>
      simp_all [Outcome.andThen, Cfg.emit, Cfg.call]
  have hquiet : Event.check_exception_raise sf ∉
      newEvents c (sync_epilogue C E (sync_resumed E sf c)) := by
    cases hx : C.USE_EXTENSION <;>
      simp [hx, sync_epilogue, sync_resumed, newEvents, Outcome.cfg, Cfg.emit, Cfg.call,
        extend_sync]
  refine ⟨hnothrow, hclear, hset, ?_, ?_⟩
  · cases hP : hasFlag ((sync_resumed E sf c).st.frames sf).flags C.CILK_FRAME_EXCEPTION_PENDING
    · rw [hclear hP, hnothrow]
      simpa using hquiet
    · rw [hset hP]
      cases hr : E.check_exception_raise sf (sync_resumed E sf c).st <;>
        cases hx : C.USE_EXTENSION <;>
        simp [hx, sync_epilogue, sync_resumed, newEvents, Outcome.cfg, Cfg.emit, Cfg.call,
          extend_sync]
  · rw [hnothrow]
    exact hquiet

/-- C18 at a concrete input: a frame with UNSYNCHED set whose scheduler wait
resumes with EXCEPTION_PENDING set. -/
theorem sync_and_sync_nothrow_differ_only_by_reraise_witness :
    hasFlag ((mkCfg 2).st.frames 1).flags debugConfig.CILK_FRAME_UNSYNCHED = true ∧
    __cilk_sync_nothrow debugConfig (stampExt 8) 1 (mkCfg 2) =
      sync_epilogue debugConfig (stampExt 8) (sync_resumed (stampExt 8) 1 (mkCfg 2)) ∧
    (Event.check_exception_raise 1 ∈
        newEvents (mkCfg 2) (__cilk_sync debugConfig (stampExt 8) 1 (mkCfg 2)) ↔
      hasFlag ((sync_resumed (stampExt 8) 1 (mkCfg 2)).st.frames 1).flags
        debugConfig.CILK_FRAME_EXCEPTION_PENDING = true) ∧
    Event.check_exception_raise 1 ∉
      newEvents (mkCfg 2) (__cilk_sync_nothrow debugConfig (stampExt 8) 1 (mkCfg 2)) :=
  ⟨by decide,
    (sync_and_sync_nothrow_differ_only_by_reraise debugConfig (stampExt 8) 1 (mkCfg 2)
      (by decide)).1,
    (sync_and_sync_nothrow_differ_only_by_reraise debugConfig (stampExt 8) 1 (mkCfg 2)
      (by decide)).2.2.2⟩

/-! ## Grainsize -/

/-- C19 at `n = 12`, one worker: the generated 16-, 32- and 64-bit functions
return 1, while `min(2048, ceil(n / (8 * nworkers)))` is 2; at `n = 100` they
return 12, the documented equation gives 13. -/
theorem grainsize_floor_where_documented_ceil :
    __cilkrts_cilk_for_grainsize_16 1 12 = some 1 ∧
    __cilkrts_cilk_for_grainsize_32 1 12 = some 1 ∧
    __cilkrts_cilk_for_grainsize_64 1 12 = some 1 ∧
    min 2048 ((12 + 8 * 1 - 1) / (8 * 1)) = 2 ∧
    __cilkrts_cilk_for_grainsize_32 1 100 = some 12 ∧
    min 2048 ((100 + 8 * 1 - 1) / (8 * 1)) = 13 := by
  decide

/-! ## Frame teardown: `leave_frame` -/

theorem hasFlag_zero (m : Nat) : hasFlag 0 m = false := by
  simp [hasFlag]

theorem ne_zero_of_hasFlag {f m : Nat} (h : hasFlag f m = true) : f ≠ 0 := by
  intro hf
  rw [hf, hasFlag_zero] at h
  exact Bool.noConfusion h

theorem leave_frame_popped_flags (sf : Nat) (c : Cfg) :
    ((leave_frame_popped sf c).st.frames sf).flags = (c.st.frames sf).flags := by
  simp [leave_frame_popped, Cfg.modFrame, State.modFrame, Cfg.setTop, State.setTop]

theorem leave_frame_popped_trace (sf : Nat) (c : Cfg) :
    (leave_frame_popped sf c).trace = c.trace := by
  simp [leave_frame_popped, Cfg.modFrame, Cfg.setTop]

/-- The routine `leave_frame` past its first assertion, in terms of the state
after the handoff. -/
theorem leave_frame_unfold (C : Config) (E : Ext) (sf : Nat) (c : Cfg) :
    __cilkrts_leave_frame C E sf c =
      CILK_ASSERT C (CHECK_CILK_FRAME_MAGIC C c.st sf) c fun _ =>
        if ((leave_frame_handoff C E sf c).st.frames sf).flags = 0 then
          Outcome.ret (leave_frame_handoff C E sf c)
        else
          CILK_ASSERT C
            (!hasFlag ((leave_frame_handoff C E sf c).st.frames sf).flags C.CILK_FRAME_DETACHED)
            (leave_frame_handoff C E sf c) fun h =>
            if hasFlag ((leave_frame_handoff C E sf c).st.frames sf).flags
                C.CILK_FRAME_STOLEN then
              CILK_ASSERT C
                (CHECK_CILK_FRAME_MAGIC C (E.Cilk_set_return h.st) sf)
                ((h.emit [.Cilk_set_return]).call E.Cilk_set_return) fun k => Outcome.ret k
            else
              Outcome.ret h := by
  unfold __cilkrts_leave_frame CILK_ASSERT
  by_cases hA : (C.CILK_DEBUG && !CHECK_CILK_FRAME_MAGIC C c.st sf) = true
  · simp [hA]
  · have hpf := leave_frame_popped_flags sf c
    simp only [leave_frame_popped] at hpf
    by_cases hL : hasFlag (c.st.frames sf).flags C.CILK_FRAME_LAST = true
    · simp [hA, hL, leave_frame_handoff, leave_frame_popped, hpf, Cfg.emit, Cfg.call]
    · simp [hA, hL, leave_frame_handoff, leave_frame_popped, hpf, Cfg.emit, Cfg.call]

theorem leave_frame_handoff_trace (C : Config) (E : Ext) (sf : Nat) (c : Cfg) :
    (leave_frame_handoff C E sf c).trace =
      c.trace ++ (if hasFlag (c.st.frames sf).flags C.CILK_FRAME_LAST then
        [.setjmp sf, .sysdep_save_fp_ctrl_state sf, .internal_exit_cilkified_root sf,
          .sanitizer_finish_switch_fiber] else []) := by
  unfold leave_frame_handoff
  split <;> simp [uncilkify, Cfg.emit, Cfg.call, leave_frame_popped_trace]

/-- C20: for a frame with a valid magic tag and DETACHED clear in the flags
`leave_frame` tests, the uncilkify handoff is performed if and only if LAST is
set at entry, the return protocol `Cilk_set_return` is executed if and only if
STOLEN is set in the flags as re-read after any uncilkify, and with zero flags
the call returns right after the pop, having emitted nothing. -/
theorem leave_frame_uncilkify_iff_last_set_return_iff_stolen (C : Config) (E : Ext)
    (sf : Nat) (c : Cfg) (hM : CHECK_CILK_FRAME_MAGIC C c.st sf = true)
    (hD : hasFlag ((leave_frame_handoff C E sf c).st.frames sf).flags
      C.CILK_FRAME_DETACHED = false) :
    (Event.internal_exit_cilkified_root sf ∈ newEvents c (__cilkrts_leave_frame C E sf c) ↔
      hasFlag (c.st.frames sf).flags C.CILK_FRAME_LAST = true) ∧
    (Event.Cilk_set_return ∈ newEvents c (__cilkrts_leave_frame C E sf c) ↔
      hasFlag ((leave_frame_handoff C E sf c).st.frames sf).flags
        C.CILK_FRAME_STOLEN = true) ∧
    ((c.st.frames sf).flags = 0 →
      __cilkrts_leave_frame C E sf c = Outcome.ret (leave_frame_popped sf c)) := by
  have htr := leave_frame_handoff_trace C E sf c
  rw [leave_frame_unfold]
  refine ⟨?_, ?_, ?_⟩
  · by_cases h0 : ((leave_frame_handoff C E sf c).st.frames sf).flags = 0
    · by_cases hL : hasFlag (c.st.frames sf).flags C.CILK_FRAME_LAST = true <;>
        simp [CILK_ASSERT, hM, h0, newEvents, Outcome.cfg, htr, hL]
    · by_cases hS : hasFlag ((leave_frame_handoff C E sf c).st.frames sf).flags
          C.CILK_FRAME_STOLEN = true <;>
        by_cases hL : hasFlag (c.st.frames sf).flags C.CILK_FRAME_LAST = true <;>
        by_cases hG : (C.CILK_DEBUG &&
          !CHECK_CILK_FRAME_MAGIC C (E.Cilk_set_return (leave_frame_handoff C E sf c).st) sf)
            = true <;>
        simp [CILK_ASSERT, hM, h0, hD, hS, hG, newEvents, Outcome.cfg, htr, hL, Cfg.emit,
          Cfg.call]
  · by_cases h0 : ((leave_frame_handoff C E sf c).st.frames sf).flags = 0
    · have hS : hasFlag ((leave_frame_handoff C E sf c).st.frames sf).flags
          C.CILK_FRAME_STOLEN = false := by rw [h0]; exact hasFlag_zero _
      by_cases hL : hasFlag (c.st.frames sf).flags C.CILK_FRAME_LAST = true <;>
        simp [CILK_ASSERT, hM, h0, hasFlag_zero, newEvents, Outcome.cfg, htr, hL]
    · by_cases hS : hasFlag ((leave_frame_handoff C E sf c).st.frames sf).flags
          C.CILK_FRAME_STOLEN = true <;>
        by_cases hL : hasFlag (c.st.frames sf).flags C.CILK_FRAME_LAST = true <;>
        by_cases hG : (C.CILK_DEBUG &&
          !CHECK_CILK_FRAME_MAGIC C (E.Cilk_set_return (leave_frame_handoff C E sf c).st) sf)
            = true <;>
        simp [CILK_ASSERT, hM, h0, hD, hS, hG, newEvents, Outcome.cfg, htr, hL, Cfg.emit,
          Cfg.call]
  · intro hz
    have hL : hasFlag (c.st.frames sf).flags C.CILK_FRAME_LAST = false := by
      rw [hz]; exact hasFlag_zero _
    have hh : leave_frame_handoff C E sf c = leave_frame_popped sf c := by
      simp [leave_frame_handoff, hL]
    simp [CILK_ASSERT, hM, hh, leave_frame_popped_flags, hz]

/-- C20 at a concrete input: a frame flagged LAST whose uncilkify handoff
resumes with STOLEN set. -/
theorem leave_frame_uncilkify_iff_last_set_return_iff_stolen_witness :
    CHECK_CILK_FRAME_MAGIC debugConfig (mkCfg 128).st 1 = true ∧
    hasFlag ((leave_frame_handoff debugConfig (stampExt 1) 1 (mkCfg 128)).st.frames 1).flags
      debugConfig.CILK_FRAME_DETACHED = false ∧
    (Event.internal_exit_cilkified_root 1 ∈
        newEvents (mkCfg 128) (__cilkrts_leave_frame debugConfig (stampExt 1) 1 (mkCfg 128)) ↔
      hasFlag ((mkCfg 128).st.frames 1).flags debugConfig.CILK_FRAME_LAST = true) ∧
    (Event.Cilk_set_return ∈
        newEvents (mkCfg 128) (__cilkrts_leave_frame debugConfig (stampExt 1) 1 (mkCfg 128)) ↔
      hasFlag ((leave_frame_handoff debugConfig (stampExt 1) 1 (mkCfg 128)).st.frames 1).flags
        debugConfig.CILK_FRAME_STOLEN = true) :=
  ⟨by decide, by decide,
    (leave_frame_uncilkify_iff_last_set_return_iff_stolen debugConfig (stampExt 1) 1
      (mkCfg 128) (by decide) (by decide)).1,
    (leave_frame_uncilkify_iff_last_set_return_iff_stolen debugConfig (stampExt 1) 1
      (mkCfg 128) (by decide) (by decide)).2.1⟩

/-- C14 fails without `CILK_DEBUG`: frame 1 detaches (DETACHED set, flags `4`)
and is then passed to `leave_frame`, which returns normally; no `cilkrts_bug`
is raised. -/
theorem leave_frame_detached_returns_without_debug :
    hasFlag ((__cilkrts_detach releaseConfig idleExt 1 2 (mkCfg 0)).cfg.st.frames 1).flags
      releaseConfig.CILK_FRAME_DETACHED = true ∧
    (__cilkrts_leave_frame releaseConfig idleExt 1
      (__cilkrts_detach releaseConfig idleExt 1 2 (mkCfg 0)).cfg).returned = true ∧
    (__cilkrts_leave_frame releaseConfig idleExt 1
      (__cilkrts_detach releaseConfig idleExt 1 2 (mkCfg 0)).cfg).aborted = false ∧
    Event.cilkrts_bug ∉
      (__cilkrts_leave_frame releaseConfig idleExt 1
        (__cilkrts_detach releaseConfig idleExt 1 2 (mkCfg 0)).cfg).cfg.trace := by
  decide

/-- C14, amended: in a build with `CILK_DEBUG`, when DETACHED is set in the
flags `leave_frame` tests (those at entry when LAST is clear, those re-read
after the uncilkify handoff when LAST is set), `leave_frame` dies in
`cilkrts_bug`: it does not return and does not run `Cilk_set_return`. -/
theorem leave_frame_detached_fatal_under_debug (C : Config) (E : Ext) (sf : Nat) (c : Cfg)
    (hdbg : C.CILK_DEBUG = true)
    (hD : hasFlag ((leave_frame_handoff C E sf c).st.frames sf).flags
      C.CILK_FRAME_DETACHED = true) :
    (__cilkrts_leave_frame C E sf c).aborted = true ∧
    (__cilkrts_leave_frame C E sf c).returned = false ∧
    Event.cilkrts_bug ∈ newEvents c (__cilkrts_leave_frame C E sf c) ∧
    Event.Cilk_set_return ∉ newEvents c (__cilkrts_leave_frame C E sf c) := by
  have htr := leave_frame_handoff_trace C E sf c
  have h0 := ne_zero_of_hasFlag hD
  rw [leave_frame_unfold]
  by_cases hM : CHECK_CILK_FRAME_MAGIC C c.st sf = true
  · by_cases hL : hasFlag (c.st.frames sf).flags C.CILK_FRAME_LAST = true <;>
      simp [CILK_ASSERT, hdbg, hM, h0, hD, Outcome.aborted, Outcome.returned, newEvents,
        Outcome.cfg, Cfg.emit, htr, hL]
  · simp [CILK_ASSERT, hdbg, hM, Outcome.aborted, Outcome.returned, newEvents,
      Outcome.cfg, Cfg.emit]

/-- C14, amended, at a concrete input: DETACHED and STOLEN both set. -/
theorem leave_frame_detached_fatal_under_debug_witness :
    debugConfig.CILK_DEBUG = true ∧
    hasFlag ((leave_frame_handoff debugConfig idleExt 1 (mkCfg 5)).st.frames 1).flags
      debugConfig.CILK_FRAME_DETACHED = true ∧
    (__cilkrts_leave_frame debugConfig idleExt 1 (mkCfg 5)).aborted = true ∧
    (__cilkrts_leave_frame debugConfig idleExt 1 (mkCfg 5)).returned = false ∧
    Event.cilkrts_bug ∈
      newEvents (mkCfg 5) (__cilkrts_leave_frame debugConfig idleExt 1 (mkCfg 5)) ∧
    Event.Cilk_set_return ∉
      newEvents (mkCfg 5) (__cilkrts_leave_frame debugConfig idleExt 1 (mkCfg 5)) :=
  ⟨by decide, by decide,
    leave_frame_detached_fatal_under_debug debugConfig idleExt 1 (mkCfg 5) (by decide)
      (by decide)⟩

/-! ## Assertions on the magic tag and on double detach -/

theorem detach_unfold_ok (C : Config) (E : Ext) (sf parent : Nat) (c : Cfg)
    (hM : (C.CILK_DEBUG && !CHECK_CILK_FRAME_MAGIC C c.st sf) = false)
    (hroom : (C.CILK_DEBUG && !decide (c.st.w.tail + 1 < c.st.w.ltq_limit)) = false) :
    ∃ r : Cfg, __cilkrts_detach C E sf parent c = Outcome.ret r ∧
      (r.st.frames sf).flags = (c.st.frames sf).flags ||| C.CILK_FRAME_DETACHED ∧
      (r.st.frames sf).magic = (c.st.frames sf).magic ∧
      (r.st.frames sf).fh = (c.st.frames sf).fh ∧
      (r.st.frames sf).call_parent = (c.st.frames sf).call_parent ∧
      (∀ x, x ≠ sf → (r.st.frames x).flags = (c.st.frames x).flags) ∧
      (∀ x, (r.st.frames x).magic = (c.st.frames x).magic ∧
        (r.st.frames x).fh = (c.st.frames x).fh ∧
        (r.st.frames x).call_parent = (c.st.frames x).call_parent) ∧
      r.st.current_stack_frame = c.st.current_stack_frame ∧
      r.st.current_fh = c.st.current_fh ∧
      r.st.w.tail = c.st.w.tail + 1 ∧
      r.st.w.head = c.st.w.head ∧
      r.st.w.exc = c.st.w.exc ∧
      r.st.w.ltq_limit = c.st.w.ltq_limit ∧
      r.st.ltq c.st.w.tail = parent ∧
      (∀ i, i ≠ c.st.w.tail → r.st.ltq i = c.st.ltq i) ∧
      Event.cilkrts_bug ∉ r.trace.drop c.trace.length := by
  by_cases hx : C.USE_EXTENSION = true
  · simp only [__cilkrts_detach, CILK_ASSERT, hM, hx, extend_spawn, Cfg.emit, Cfg.call,
      Cfg.modFrame, State.modFrame, hroom, if_true, Bool.false_eq_true, if_false]
    refine ⟨_, rfl, ?_⟩
    by_cases hp : parent = sf
    · subst hp
      refine ⟨?_, ?_, ?_, ?_, ?_, ?_, ?_, ?_, ?_, ?_, ?_, ?_, ?_, ?_, ?_⟩ <;>
        (try intro x) <;> (try intro hx2) <;> (try by_cases hx3 : x = parent) <;>
        simp_all [Function.update]
    · have hp2 : ¬ sf = parent := fun h => hp h.symm
      refine ⟨?_, ?_, ?_, ?_, ?_, ?_, ?_, ?_, ?_, ?_, ?_, ?_, ?_, ?_, ?_⟩ <;>
        (try intro x) <;> (try intro hx2) <;> (try by_cases hx3 : x = parent) <;>
        (try by_cases hx4 : x = sf) <;>
        simp_all [Function.update]
  · simp only [__cilkrts_detach, CILK_ASSERT, hM, hx, Cfg.emit, Cfg.call,
      Cfg.modFrame, State.modFrame, hroom, Bool.false_eq_true, if_false]
    refine ⟨_, rfl, ?_⟩
    refine ⟨?_, ?_, ?_, ?_, ?_, ?_, ?_, ?_, ?_, ?_, ?_, ?_, ?_, ?_, ?_⟩ <;>
      (try intro x) <;> (try intro hx2) <;> (try by_cases hx4 : x = sf) <;>
      simp_all [Function.update]

/-- C15 fails without `CILK_DEBUG`: on a frame whose magic tag does not
validate, `detach` returns normally, having set DETACHED and advanced the
deque tail. -/
theorem detach_bad_magic_proceeds_without_debug :
    CHECK_CILK_FRAME_MAGIC releaseConfig (staleCfg 0).st 1 = false ∧
    (__cilkrts_detach releaseConfig idleExt 1 2 (staleCfg 0)).returned = true ∧
    (__cilkrts_detach releaseConfig idleExt 1 2 (staleCfg 0)).aborted = false ∧
    ((staleCfg 0).st.frames 1).flags = 0 ∧
    ((__cilkrts_detach releaseConfig idleExt 1 2 (staleCfg 0)).cfg.st.frames 1).flags = 4 ∧
    (staleCfg 0).st.w.tail = 0 ∧
    (__cilkrts_detach releaseConfig idleExt 1 2 (staleCfg 0)).cfg.st.w.tail = 1 := by
  decide

/-- C15, amended: in a build with `CILK_DEBUG`, on a frame whose magic tag
does not validate, `detach`, `leave_frame` and `leave_frame_helper` die in
`cilkrts_bug` with the state exactly as they received it, and `pause_frame`
dies in `cilkrts_bug` with the state exactly as `__cilkrts_cleanup_fiber`
handed it back (the magic tag being checked after that call). -/
theorem bad_magic_aborts_before_any_write (C : Config) (E : Ext) (sf parent exn : Nat)
    (spawner : Bool) (c : Cfg) (hdbg : C.CILK_DEBUG = true)
    (hM : CHECK_CILK_FRAME_MAGIC C c.st sf = false)
    (hM2 : CHECK_CILK_FRAME_MAGIC C (E.cleanup_fiber sf 1 c.st) sf = false) :
    __cilkrts_detach C E sf parent c = Outcome.abort (c.emit [.cilkrts_bug]) ∧
    __cilkrts_leave_frame C E sf c = Outcome.abort (c.emit [.cilkrts_bug]) ∧
    __cilkrts_leave_frame_helper C E sf parent spawner c =
      Outcome.abort (c.emit [.cilkrts_bug]) ∧
    __cilkrts_pause_frame C E sf parent exn spawner c =
      Outcome.abort { st := E.cleanup_fiber sf 1 c.st,
                      trace := c.trace ++ [.setjmp sf, .cleanup_fiber sf 1, .cilkrts_bug] } ∧
    (c.emit [.cilkrts_bug]).st = c.st := by
  refine ⟨?_, ?_, ?_, ?_, rfl⟩
  · simp [__cilkrts_detach, CILK_ASSERT, hdbg, hM]
  · simp [__cilkrts_leave_frame, CILK_ASSERT, hdbg, hM]
  · simp [__cilkrts_leave_frame_helper, CILK_ASSERT, hdbg, hM]
  · simp [__cilkrts_pause_frame, CILK_ASSERT, hdbg, Cfg.call, Cfg.emit, hM2]

/-- C15, amended, at a concrete input. -/
theorem bad_magic_aborts_before_any_write_witness :
    debugConfig.CILK_DEBUG = true ∧
    CHECK_CILK_FRAME_MAGIC debugConfig (staleCfg 0).st 1 = false ∧
    __cilkrts_detach debugConfig idleExt 1 2 (staleCfg 0) =
      Outcome.abort ((staleCfg 0).emit [.cilkrts_bug]) ∧
    __cilkrts_leave_frame debugConfig idleExt 1 (staleCfg 0) =
      Outcome.abort ((staleCfg 0).emit [.cilkrts_bug]) ∧
    __cilkrts_leave_frame_helper debugConfig idleExt 1 2 true (staleCfg 0) =
      Outcome.abort ((staleCfg 0).emit [.cilkrts_bug]) ∧
    __cilkrts_pause_frame debugConfig idleExt 1 2 0 true (staleCfg 0) =
      Outcome.abort { st := idleExt.cleanup_fiber 1 1 (staleCfg 0).st,
                      trace := (staleCfg 0).trace ++
                        [.setjmp 1, .cleanup_fiber 1 1, .cilkrts_bug] } ∧
    ((staleCfg 0).emit [.cilkrts_bug]).st = (staleCfg 0).st :=
  ⟨by decide, by decide,
    bad_magic_aborts_before_any_write debugConfig idleExt 1 2 0 true (staleCfg 0)
      (by decide) (by decide) (by decide)⟩

/-- C16 fails: with assertions on, frame 1 detaches with parent 2 and then
detaches again.  The second `detach` returns normally, stores the parent in
the next deque slot and advances the tail a second time. -/
theorem second_detach_is_not_fatal :
    hasFlag ((__cilkrts_detach debugConfig idleExt 1 2 (mkCfg 0)).cfg.st.frames 1).flags
      debugConfig.CILK_FRAME_DETACHED = true ∧
    (__cilkrts_detach debugConfig idleExt 1 2 (mkCfg 0)).cfg.st.w.tail = 1 ∧
    (__cilkrts_detach debugConfig idleExt 1 2
      (__cilkrts_detach debugConfig idleExt 1 2 (mkCfg 0)).cfg).returned = true ∧
    (__cilkrts_detach debugConfig idleExt 1 2
      (__cilkrts_detach debugConfig idleExt 1 2 (mkCfg 0)).cfg).aborted = false ∧
    (__cilkrts_detach debugConfig idleExt 1 2
      (__cilkrts_detach debugConfig idleExt 1 2 (mkCfg 0)).cfg).cfg.st.w.tail = 2 ∧
    (__cilkrts_detach debugConfig idleExt 1 2
      (__cilkrts_detach debugConfig idleExt 1 2 (mkCfg 0)).cfg).cfg.st.ltq 1 = 2 := by
  decide

/-- C16, amended: `detach` does not test DETACHED.  On a frame that is already
DETACHED, with a valid magic tag and room in the deque, a second `detach`
returns normally: no `cilkrts_bug` is raised, the frame stays DETACHED (its
flags are the old flags with the DETACHED mask or-ed in), `parent` is stored
at the old tail and the tail advances by one once more. -/
theorem second_detach_appends_again (C : Config) (E : Ext) (sf parent : Nat) (c : Cfg)
    (hM : CHECK_CILK_FRAME_MAGIC C c.st sf = true)
    (hroom : c.st.w.tail + 1 < c.st.w.ltq_limit)
    (hD : hasFlag (c.st.frames sf).flags C.CILK_FRAME_DETACHED = true) :
    ∃ r : Cfg, __cilkrts_detach C E sf parent c = Outcome.ret r ∧
      (r.st.frames sf).flags = (c.st.frames sf).flags ||| C.CILK_FRAME_DETACHED ∧
      hasFlag (r.st.frames sf).flags C.CILK_FRAME_DETACHED = true ∧
      r.st.ltq c.st.w.tail = parent ∧
      r.st.w.tail = c.st.w.tail + 1 ∧
      Event.cilkrts_bug ∉ r.trace.drop c.trace.length := by
  obtain ⟨r, hr, hfl, -, -, -, -, -, -, -, htail, -, -, -, hslot, -, hbug⟩ :=
    detach_unfold_ok C E sf parent c (by simp [hM]) (by simp [hroom])
  refine ⟨r, hr, hfl, ?_, hslot, htail, hbug⟩
  rw [hfl]
  have hne : C.CILK_FRAME_DETACHED ≠ 0 := by
    intro h0
    rw [h0] at hD
    simp [hasFlag] at hD
  simp [hasFlag, setMask_and, hne]

/-- C16, amended, at a concrete input. -/
theorem second_detach_appends_again_witness :
    CHECK_CILK_FRAME_MAGIC debugConfig (mkCfg 4).st 1 = true ∧
    (mkCfg 4).st.w.tail + 1 < (mkCfg 4).st.w.ltq_limit ∧
    hasFlag ((mkCfg 4).st.frames 1).flags debugConfig.CILK_FRAME_DETACHED = true ∧
    ∃ r : Cfg, __cilkrts_detach debugConfig idleExt 1 2 (mkCfg 4) = Outcome.ret r ∧
      (r.st.frames 1).flags =
        ((mkCfg 4).st.frames 1).flags ||| debugConfig.CILK_FRAME_DETACHED ∧
      hasFlag (r.st.frames 1).flags debugConfig.CILK_FRAME_DETACHED = true ∧
      r.st.ltq (mkCfg 4).st.w.tail = 2 ∧
      r.st.w.tail = (mkCfg 4).st.w.tail + 1 ∧
      Event.cilkrts_bug ∉ r.trace.drop (mkCfg 4).trace.length :=
  ⟨by decide, by decide, by decide,
    second_detach_appends_again debugConfig idleExt 1 2 (mkCfg 4) (by decide) (by decide)
      (by decide)⟩

/-! ## Frame teardown: the spawn helper -/

theorem helper_pop_frames_eq (C : Config) (sf parent : Nat) (s : State) :
    Function.update
        (Function.update s.frames sf { s.frames sf with call_parent := 0 }) sf
        { (Function.update s.frames sf { s.frames sf with call_parent := 0 } sf) with
          flags := clearMask
            (Function.update s.frames sf { s.frames sf with call_parent := 0 } sf).flags
            C.CILK_FRAME_DETACHED } =
      Function.update s.frames sf
        { s.frames sf with
          call_parent := 0
          flags := clearMask (s.frames sf).flags C.CILK_FRAME_DETACHED } ∧
    (Function.update s.frames sf { s.frames sf with call_parent := 0 } parent).extension =
      (s.frames parent).extension := by
  constructor
  · simp
  · by_cases hp : parent = sf
    · subst hp; simp
    · simp [Function.update, hp]

theorem leave_frame_helper_eq (C : Config) (E : Ext) (sf parent : Nat) (spawner : Bool)
    (c : Cfg) (hM : (C.CILK_DEBUG && !CHECK_CILK_FRAME_MAGIC C c.st sf) = false)
    (hD : (C.CILK_DEBUG && !hasFlag (c.st.frames sf).flags C.CILK_FRAME_DETACHED) = false) :
    __cilkrts_leave_frame_helper C E sf parent spawner c =
      Outcome.ret (helper_result C E sf parent spawner 0 c) := by
  obtain ⟨hf1, hf2⟩ := helper_pop_frames_eq C sf parent c.st
  simp only [__cilkrts_leave_frame_helper, CILK_ASSERT, hM, Bool.false_eq_true, if_false]
  cases spawner <;> by_cases hx : C.USE_EXTENSION = true <;>
    by_cases hlost : c.st.w.exc > c.st.w.tail - 1 <;>
    simp [hx, hlost, hD, helper_result, helper_pop, the_events, extend_return_from_spawn,
      Cfg.emit, Cfg.call, Cfg.modFrame, Cfg.setTop, State.modFrame, State.setTop, hf2]

theorem pause_frame_eq (C : Config) (E : Ext) (sf parent exn : Nat) (spawner : Bool)
    (c : Cfg)
    (hM : (C.CILK_DEBUG &&
      !CHECK_CILK_FRAME_MAGIC C (pause_frame_entered E sf c).st sf) = false)
    (hD : hasFlag ((pause_frame_entered E sf c).st.frames sf).flags
      C.CILK_FRAME_DETACHED = true) :
    __cilkrts_pause_frame C E sf parent exn spawner c =
      Outcome.ret (helper_result C E sf parent spawner exn (pause_frame_entered E sf c)) := by
  obtain ⟨hf1, hf2⟩ := helper_pop_frames_eq C sf parent (E.cleanup_fiber sf 1 c.st)
  simp only [pause_frame_entered, Cfg.emit, Cfg.call] at hM hD
  simp only [__cilkrts_pause_frame, CILK_ASSERT, Cfg.emit, Cfg.call, hM, Bool.false_eq_true,
    if_false]
  cases spawner <;> by_cases hx : C.USE_EXTENSION = true <;>
    by_cases hlost : (E.cleanup_fiber sf 1 c.st).w.exc > (E.cleanup_fiber sf 1 c.st).w.tail - 1 <;>
    simp [hx, hlost, hD, helper_result, helper_pop, the_events, extend_return_from_spawn,
      Cfg.emit, Cfg.call, Cfg.modFrame, Cfg.setTop, State.modFrame, State.setTop, hf2,
      pause_frame_entered]

/-- C13: once `__cilkrts_cleanup_fiber` has handed control back, `pause_frame`
on a DETACHED frame performs the pop and race check of `leave_frame_helper`:
both reach the same state `helper_pop` (fiber top rewound when `spawner`,
`call_parent` cleared, DETACHED cleared, tail one lower) after the same tail
store and `exc` load, and both enter `Cilk_exception_handler` exactly when the
loaded `exc` is above the new tail, `leave_frame_helper` with a null exception
and `pause_frame` with `exn`.  When the handler is not entered the two end in
the same configuration. -/
theorem pause_frame_same_pop_as_leave_frame_helper (C : Config) (E : Ext)
    (sf parent exn : Nat) (spawner : Bool) (c : Cfg)
    (hM : CHECK_CILK_FRAME_MAGIC C (pause_frame_entered E sf c).st sf = true)
    (hD : hasFlag ((pause_frame_entered E sf c).st.frames sf).flags
      C.CILK_FRAME_DETACHED = true) :
    __cilkrts_leave_frame_helper C E sf parent spawner (pause_frame_entered E sf c) =
      Outcome.ret (helper_result C E sf parent spawner 0 (pause_frame_entered E sf c)) ∧
    __cilkrts_pause_frame C E sf parent exn spawner c =
      Outcome.ret (helper_result C E sf parent spawner exn (pause_frame_entered E sf c)) ∧
    (¬ (pause_frame_entered E sf c).st.w.exc > (pause_frame_entered E sf c).st.w.tail - 1 →
      __cilkrts_pause_frame C E sf parent exn spawner c =
        __cilkrts_leave_frame_helper C E sf parent spawner (pause_frame_entered E sf c) ∧
      Event.Cilk_exception_handler exn ∉
        newEvents c (__cilkrts_pause_frame C E sf parent exn spawner c)) ∧
    ((pause_frame_entered E sf c).st.w.exc > (pause_frame_entered E sf c).st.w.tail - 1 →
      (__cilkrts_pause_frame C E sf parent exn spawner c).cfg.st =
        E.Cilk_exception_handler exn
          (helper_pop C sf parent spawner (pause_frame_entered E sf c).st) ∧
      (__cilkrts_leave_frame_helper C E sf parent spawner
          (pause_frame_entered E sf c)).cfg.st =
        E.Cilk_exception_handler 0
          (helper_pop C sf parent spawner (pause_frame_entered E sf c).st) ∧
      Event.Cilk_exception_handler exn ∈
        newEvents c (__cilkrts_pause_frame C E sf parent exn spawner c) ∧
      Event.Cilk_exception_handler 0 ∈
        newEvents (pause_frame_entered E sf c)
          (__cilkrts_leave_frame_helper C E sf parent spawner (pause_frame_entered E sf c))) := by
  have h1 := leave_frame_helper_eq C E sf parent spawner (pause_frame_entered E sf c)
    (by simp [hM]) (by simp [hD])
  have h2 := pause_frame_eq C E sf parent exn spawner c (by simp [hM]) hD
  have hq : (pause_frame_entered E sf c).trace =
      c.trace ++ [.setjmp sf, .cleanup_fiber sf 1] := rfl
  refine ⟨h1, h2, ?_, ?_⟩
  · intro hwon
    rw [h1, h2]
    refine ⟨by simp [helper_result, hwon], ?_⟩
    simp only [helper_result, hwon, if_false, newEvents, Outcome.cfg, hq]
    by_cases hx : C.USE_EXTENSION = true <;> simp [the_events, hx]
  · intro hlost
    rw [h1, h2]
    refine ⟨by simp [helper_result, hlost, Outcome.cfg],
      by simp [helper_result, hlost, Outcome.cfg], ?_, ?_⟩
    · simp only [helper_result, hlost, if_true, newEvents, Outcome.cfg, hq]
      by_cases hx : C.USE_EXTENSION = true <;> simp [the_events, hx]
    · simp only [helper_result, hlost, if_true, newEvents, Outcome.cfg]
      by_cases hx : C.USE_EXTENSION = true <;> simp [the_events, hx]

/-- C13 at a concrete input: frame 1 has detached with parent 2, so the deque
holds one entry and the pop is uncontested. -/
theorem pause_frame_same_pop_as_leave_frame_helper_witness :
    CHECK_CILK_FRAME_MAGIC debugConfig
      (pause_frame_entered idleExt 1
        (__cilkrts_detach debugConfig idleExt 1 2 (mkCfg 0)).cfg).st 1 = true ∧
    hasFlag ((pause_frame_entered idleExt 1
        (__cilkrts_detach debugConfig idleExt 1 2 (mkCfg 0)).cfg).st.frames 1).flags
      debugConfig.CILK_FRAME_DETACHED = true ∧
    __cilkrts_leave_frame_helper debugConfig idleExt 1 2 true
        (pause_frame_entered idleExt 1
          (__cilkrts_detach debugConfig idleExt 1 2 (mkCfg 0)).cfg) =
      Outcome.ret (helper_result debugConfig idleExt 1 2 true 0
        (pause_frame_entered idleExt 1
          (__cilkrts_detach debugConfig idleExt 1 2 (mkCfg 0)).cfg)) ∧
    __cilkrts_pause_frame debugConfig idleExt 1 2 7 true
        (__cilkrts_detach debugConfig idleExt 1 2 (mkCfg 0)).cfg =
      Outcome.ret (helper_result debugConfig idleExt 1 2 true 7
        (pause_frame_entered idleExt 1
          (__cilkrts_detach debugConfig idleExt 1 2 (mkCfg 0)).cfg)) :=
  ⟨by decide, by decide,
    (pause_frame_same_pop_as_leave_frame_helper debugConfig idleExt 1 2 7 true
      (__cilkrts_detach debugConfig idleExt 1 2 (mkCfg 0)).cfg (by decide) (by decide)).1,
    (pause_frame_same_pop_as_leave_frame_helper debugConfig idleExt 1 2 7 true
      (__cilkrts_detach debugConfig idleExt 1 2 (mkCfg 0)).cfg (by decide) (by decide)).2.1⟩

/-- C12: on a helper frame that is not DETACHED, with a valid magic tag and
room in the deque, `detach` returns with DETACHED set and the following
`leave_frame_helper` returns having reached a state in which DETACHED is clear
again, the flags word of `sf` is the one from before `detach`, and the deque
tail is the one from before `detach`.  That state is final when the loaded
`exc` is not above the restored tail, and is the state handed to
`Cilk_exception_handler` otherwise. -/
theorem detach_then_leave_frame_helper_restores (C : Config) (E : Ext) (sf parent : Nat)
    (spawner : Bool) (c : Cfg)
    (hM : CHECK_CILK_FRAME_MAGIC C c.st sf = true)
    (hroom : c.st.w.tail + 1 < c.st.w.ltq_limit)
    (hND : (c.st.frames sf).flags &&& C.CILK_FRAME_DETACHED = 0)
    (hf : (c.st.frames sf).flags < 2 ^ 32)
    (hDlt : C.CILK_FRAME_DETACHED < 2 ^ 32)
    (hD0 : C.CILK_FRAME_DETACHED ≠ 0) :
    ∃ d : Cfg, __cilkrts_detach C E sf parent c = Outcome.ret d ∧
      hasFlag (d.st.frames sf).flags C.CILK_FRAME_DETACHED = true ∧
      d.st.w.tail = c.st.w.tail + 1 ∧
      __cilkrts_leave_frame_helper C E sf parent spawner d =
        Outcome.ret (helper_result C E sf parent spawner 0 d) ∧
      ((helper_pop C sf parent spawner d.st).frames sf).flags = (c.st.frames sf).flags ∧
      hasFlag ((helper_pop C sf parent spawner d.st).frames sf).flags
        C.CILK_FRAME_DETACHED = false ∧
      (helper_pop C sf parent spawner d.st).w.tail = c.st.w.tail ∧
      (helper_result C E sf parent spawner 0 d).st =
        (if c.st.w.exc > c.st.w.tail then
          E.Cilk_exception_handler 0 (helper_pop C sf parent spawner d.st)
        else helper_pop C sf parent spawner d.st) := by
  obtain ⟨d, hd, hfl, hmag, -, -, -, -, -, -, htail, -, hexc, -, -, -, -⟩ :=
    detach_unfold_ok C E sf parent c (by simp [hM]) (by simp [hroom])
  have hset : hasFlag (d.st.frames sf).flags C.CILK_FRAME_DETACHED = true := by
    rw [hfl]; simp [hasFlag, setMask_and, hD0]
  have hMd : CHECK_CILK_FRAME_MAGIC C d.st sf = true := by
    simpa [CHECK_CILK_FRAME_MAGIC, hmag] using hM
  have hpopfl : ((helper_pop C sf parent spawner d.st).frames sf).flags =
      (c.st.frames sf).flags := by
    simp [helper_pop, hfl, clearMask_setMask _ _ hf hDlt hND]
  refine ⟨d, hd, hset, htail, ?_, hpopfl, ?_, ?_, ?_⟩
  · exact leave_frame_helper_eq C E sf parent spawner d (by simp [hMd]) (by simp [hset])
  · rw [hpopfl]; simp [hasFlag, hND]
  · simp [helper_pop, htail]
  · have hcmp : (d.st.w.exc > d.st.w.tail - 1) ↔ (c.st.w.exc > c.st.w.tail) := by
      rw [htail, hexc]; simp
    by_cases hlost : c.st.w.exc > c.st.w.tail
    · simp [helper_result, hcmp.mpr hlost, hlost]
    · have hwon : ¬ d.st.w.exc > d.st.w.tail - 1 := fun h => hlost (hcmp.mp h)
      simp [helper_result, hwon, hlost]

/-- C12 at a concrete input: a fresh helper frame, an empty deque, and no
thief (`exc` at the tail). -/
theorem detach_then_leave_frame_helper_restores_witness :
    CHECK_CILK_FRAME_MAGIC debugConfig (mkCfg 2).st 1 = true ∧
    (mkCfg 2).st.w.tail + 1 < (mkCfg 2).st.w.ltq_limit ∧
    ((mkCfg 2).st.frames 1).flags &&& debugConfig.CILK_FRAME_DETACHED = 0 ∧
    ∃ d : Cfg, __cilkrts_detach debugConfig idleExt 1 2 (mkCfg 2) = Outcome.ret d ∧
      hasFlag (d.st.frames 1).flags debugConfig.CILK_FRAME_DETACHED = true ∧
      d.st.w.tail = (mkCfg 2).st.w.tail + 1 ∧
      __cilkrts_leave_frame_helper debugConfig idleExt 1 2 true d =
        Outcome.ret (helper_result debugConfig idleExt 1 2 true 0 d) ∧
      ((helper_pop debugConfig 1 2 true d.st).frames 1).flags = ((mkCfg 2).st.frames 1).flags ∧
      hasFlag ((helper_pop debugConfig 1 2 true d.st).frames 1).flags
        debugConfig.CILK_FRAME_DETACHED = false ∧
      (helper_pop debugConfig 1 2 true d.st).w.tail = (mkCfg 2).st.w.tail ∧
      (helper_result debugConfig idleExt 1 2 true 0 d).st =
        (if (mkCfg 2).st.w.exc > (mkCfg 2).st.w.tail then
          idleExt.Cilk_exception_handler 0 (helper_pop debugConfig 1 2 true d.st)
        else helper_pop debugConfig 1 2 true d.st) :=
  ⟨by decide, by decide, by decide,
    detach_then_leave_frame_helper_restores debugConfig idleExt 1 2 true (mkCfg 2)
      (by decide) (by decide) (by decide) (by decide) (by decide) (by decide)⟩

/-! ## The cactus stack under call sequences -/

theorem links_eq_iff (s t : State) :
    s.links = t.links ↔
      (∀ x, (s.frames x).call_parent = (t.frames x).call_parent) ∧
      (∀ x, (s.frames x).fh = (t.frames x).fh) ∧
      s.current_stack_frame = t.current_stack_frame ∧
      s.current_fh = t.current_fh := by
  constructor
  · intro h
    have h1 := congrArg Links.call_parent h
    have h2 := congrArg Links.fh h
    have h3 := congrArg Links.top h
    have h4 := congrArg Links.current_fh h
    exact ⟨fun x => congrFun h1 x, fun x => congrFun h2 x, h3, h4⟩
  · rintro ⟨h1, h2, h3, h4⟩
    simp only [State.links]
    congr 1
    · funext x; exact h1 x
    · funext x; exact h2 x

theorem links_ext (s : State) (L : Links)
    (h1 : ∀ x, (s.frames x).call_parent = L.call_parent x)
    (h2 : ∀ x, (s.frames x).fh = L.fh x)
    (h3 : ∀ x, s.current_stack_frame x = L.top x)
    (h4 : s.current_fh = L.current_fh) : s.links = L := by
  cases L
  simp only [State.links]
  congr 1
  · funext x; exact h1 x
  · funext x; exact h2 x
  · funext x; exact h3 x

theorem links_modFrame_flags (s : State) (sf : Nat) (g : Nat → Nat) :
    (s.modFrame sf (fun f => { f with flags := g f.flags })).links = s.links := by
  apply links_ext
  · intro x
    by_cases hx : x = sf <;> simp [State.modFrame, State.links, Function.update, hx]
  · intro x
    by_cases hx : x = sf <;> simp [State.modFrame, State.links, Function.update, hx]
  · intro x; rfl
  · rfl

theorem enter_frame_links (C : Config) (E : Ext) (hE : LinkPreserving E) (sf : Nat) (c : Cfg) :
    ∃ r : Cfg, __cilkrts_enter_frame C E sf c = Outcome.ret r ∧
      r.st.links =
        { call_parent := Function.update c.st.links.call_parent sf
            (c.st.links.top c.st.links.current_fh)
          fh := Function.update c.st.links.fh sf c.st.links.current_fh
          top := Function.update c.st.links.top c.st.links.current_fh sf
          current_fh := c.st.links.current_fh } := by
  have h0 : (c.modFrame sf (fun f => { f with flags := 0 })).st.links = c.st.links :=
    links_modFrame_flags c.st sf (fun _ => 0)
  have hl : (if (c.modFrame sf (fun f => { f with flags := 0 })).st.need_to_cilkify then
      cilkify E sf (c.modFrame sf (fun f => { f with flags := 0 }))
      else c.modFrame sf (fun f => { f with flags := 0 })).st.links = c.st.links := by
    split
    · simp only [cilkify, Cfg.emit, Cfg.call]
      rw [hE.1]; exact h0
    · exact h0
  unfold __cilkrts_enter_frame
  simp only []
  generalize (if (c.modFrame sf (fun f => { f with flags := 0 })).st.need_to_cilkify then
      cilkify E sf (c.modFrame sf (fun f => { f with flags := 0 }))
      else c.modFrame sf (fun f => { f with flags := 0 })) = c1 at hl
  refine ⟨_, rfl, ?_⟩
  obtain ⟨h1, h2, h3, h4⟩ := (links_eq_iff _ _).mp hl
  apply links_ext
  · intro x
    by_cases hx : x = sf <;>
      simp [Cfg.modFrame, Cfg.setTop, State.modFrame, State.setTop, State.links,
        Function.update, hx, h1, h3, h4]
  · intro x
    by_cases hx : x = sf <;>
      simp [Cfg.modFrame, Cfg.setTop, State.modFrame, State.setTop, State.links,
        Function.update, hx, h2, h4]
  · intro x
    by_cases hx : x = c.st.current_fh <;>
      simp [Cfg.modFrame, Cfg.setTop, State.modFrame, State.setTop, State.links,
        Function.update, hx, h3, h4]
  · simp [Cfg.modFrame, Cfg.setTop, State.modFrame, State.setTop, State.links, h4]

theorem enter_frame_helper_links (C : Config) (sf parent : Nat) (spawner : Bool) (c : Cfg)
    (hne : parent ≠ sf) :
    ∃ r : Cfg, __cilkrts_enter_frame_helper C sf parent spawner c = Outcome.ret r ∧
      r.st.links =
        { call_parent :=
            if spawner then Function.update c.st.links.call_parent sf parent
            else c.st.links.call_parent
          fh := Function.update c.st.links.fh sf (c.st.links.fh parent)
          top :=
            if spawner then Function.update c.st.links.top (c.st.links.fh parent) sf
            else c.st.links.top
          current_fh := c.st.links.current_fh } := by
  cases spawner
  · refine ⟨_, rfl, ?_⟩
    apply links_ext
    · intro x
      by_cases hx : x = sf <;>
        simp [Cfg.modFrame, State.modFrame, State.links, Function.update, hx]
    · intro x
      by_cases hx : x = sf <;>
        simp [Cfg.modFrame, State.modFrame, State.links, Function.update, hx, hne]
    · intro x; rfl
    · rfl
  · refine ⟨_, rfl, ?_⟩
    apply links_ext
    · intro x
      by_cases hx : x = sf <;>
        simp [Cfg.modFrame, Cfg.setTop, State.setTop, State.modFrame, State.links,
          Function.update, hx]
    · intro x
      by_cases hx : x = sf <;>
        simp [Cfg.modFrame, Cfg.setTop, State.setTop, State.modFrame, State.links,
          Function.update, hx, hne]
    · intro x
      by_cases hx : x = (c.st.frames parent).fh <;>
        simp [Cfg.modFrame, Cfg.setTop, State.setTop, State.modFrame, State.links,
          Function.update, hx, hne]
    · rfl

theorem detach_ret_links (C : Config) (E : Ext) (sf parent : Nat) (c r : Cfg)
    (h : __cilkrts_detach C E sf parent c = Outcome.ret r) : r.st.links = c.st.links := by
  by_cases hM : (C.CILK_DEBUG && !CHECK_CILK_FRAME_MAGIC C c.st sf) = true
  · simp [__cilkrts_detach, CILK_ASSERT, hM] at h
  · by_cases hroom : (C.CILK_DEBUG && !decide (c.st.w.tail + 1 < c.st.w.ltq_limit)) = true
    · exfalso
      by_cases hx : C.USE_EXTENSION = true <;>
        simp [__cilkrts_detach, CILK_ASSERT, hM, Cfg.emit, Cfg.modFrame, extend_spawn,
          Cfg.call, State.modFrame, hx] at h hroom <;>
        simp [hroom] at h
    · obtain ⟨r2, hr2, -, -, -, -, -, hall, htop, hcur, -⟩ :=
        detach_unfold_ok C E sf parent c (by simpa using hM) (by simpa using hroom)
      rw [hr2] at h
      cases h
      apply links_ext
      · intro x; exact (hall x).2.2
      · intro x; exact (hall x).2.1
      · intro x; rw [htop]; rfl
      · exact hcur

theorem leave_frame_popped_links (sf : Nat) (c : Cfg) :
    (leave_frame_popped sf c).st.links =
      { call_parent := Function.update c.st.links.call_parent sf 0
        fh := c.st.links.fh
        top := Function.update c.st.links.top (c.st.links.fh sf) (c.st.links.call_parent sf)
        current_fh := c.st.links.current_fh } := by
  apply links_ext
  · intro x
    by_cases hx : x = sf <;>
      simp [leave_frame_popped, Cfg.modFrame, Cfg.setTop, State.setTop, State.modFrame,
        State.links, Function.update, hx]
  · intro x
    by_cases hx : x = sf <;>
      simp [leave_frame_popped, Cfg.modFrame, Cfg.setTop, State.setTop, State.modFrame,
        State.links, Function.update, hx]
  · intro x; rfl
  · rfl

theorem leave_frame_handoff_links (C : Config) (E : Ext) (hE : LinkPreserving E) (sf : Nat)
    (c : Cfg) : (leave_frame_handoff C E sf c).st.links = (leave_frame_popped sf c).st.links := by
  unfold leave_frame_handoff
  split
  · simp only [uncilkify, Cfg.emit, Cfg.call]
    rw [hE.2.1]
  · rfl

theorem leave_frame_ret_links (C : Config) (E : Ext) (hE : LinkPreserving E) (sf : Nat)
    (c r : Cfg) (h : __cilkrts_leave_frame C E sf c = Outcome.ret r) :
    r.st.links =
      { call_parent := Function.update c.st.links.call_parent sf 0
        fh := c.st.links.fh
        top := Function.update c.st.links.top (c.st.links.fh sf) (c.st.links.call_parent sf)
        current_fh := c.st.links.current_fh } := by
  rw [← leave_frame_popped_links, ← leave_frame_handoff_links C E hE]
  rw [leave_frame_unfold] at h
  unfold CILK_ASSERT at h
  split at h
  · cases h
  · split at h
    · cases h; rfl
    · split at h
      · cases h
      · split at h
        · simp only [] at h
          split at h
          · cases h
          · cases h
            simp only [Cfg.call, Cfg.emit]
            rw [hE.2.2.2]
        · cases h; rfl

theorem helper_pop_links (C : Config) (sf parent : Nat) (spawner : Bool) (s : State) :
    (helper_pop C sf parent spawner s).links =
      { call_parent := Function.update s.links.call_parent sf 0
        fh := s.links.fh
        top := if spawner then Function.update s.links.top (s.links.fh sf) parent else s.links.top
        current_fh := s.links.current_fh } := by
  apply links_ext
  · intro x
    by_cases hx : x = sf <;> simp [helper_pop, State.links, Function.update, hx]
  · intro x
    by_cases hx : x = sf <;> simp [helper_pop, State.links, Function.update, hx]
  · intro x; cases spawner <;> rfl
  · rfl

theorem leave_frame_helper_ret_links (C : Config) (E : Ext) (hE : LinkPreserving E)
    (sf parent : Nat) (spawner : Bool) (c r : Cfg)
    (h : __cilkrts_leave_frame_helper C E sf parent spawner c = Outcome.ret r) :
    r.st.links =
      { call_parent := Function.update c.st.links.call_parent sf 0
        fh := c.st.links.fh
        top :=
          if spawner then Function.update c.st.links.top (c.st.links.fh sf) parent
          else c.st.links.top
        current_fh := c.st.links.current_fh } := by
  rw [← helper_pop_links C]
  by_cases hM : (C.CILK_DEBUG && !CHECK_CILK_FRAME_MAGIC C c.st sf) = true
  · simp [__cilkrts_leave_frame_helper, CILK_ASSERT, hM] at h
  · by_cases hD : (C.CILK_DEBUG && !hasFlag (c.st.frames sf).flags C.CILK_FRAME_DETACHED) = true
    · exfalso
      have hfl : ∀ (s : State), ((s.modFrame sf (fun f => { f with call_parent := 0 })).frames sf).flags
          = (s.frames sf).flags := by
        intro s; simp [State.modFrame]
      cases spawner <;> by_cases hx : C.USE_EXTENSION = true <;>
        simp [__cilkrts_leave_frame_helper, CILK_ASSERT, hM, Cfg.emit, Cfg.modFrame,
          extend_return_from_spawn, Cfg.call, Cfg.setTop, State.setTop, State.modFrame, hx] at h hD <;>
        simp [hD] at h
    · rw [leave_frame_helper_eq C E sf parent spawner c (by simpa using hM) (by simpa using hD)] at h
      cases h
      unfold helper_result
      split
      · simp only []
        rw [hE.2.2.1]
      · rfl

theorem mem_entered_of_mem_linked {g : List Open} {x : Nat} (h : x ∈ linkedFrames g) :
    x ∈ enteredFrames g := by
  simp only [linkedFrames, enteredFrames, List.mem_map, List.mem_filter] at h ⊢
  obtain ⟨o, ⟨ho, -⟩, hx⟩ := h
  exact ⟨o, ho, hx⟩

theorem linkedFrames_cons (o : Open) (g : List Open) :
    linkedFrames (o :: g) = if o.linked then o.sf :: linkedFrames g else linkedFrames g := by
  unfold linkedFrames
  cases h : o.linked <;> simp [List.filter_cons, h]

theorem linkedFrames_nodup {g : List Open} (h : (enteredFrames g).Nodup) :
    (linkedFrames g).Nodup :=
  List.Nodup.sublist (List.Sublist.map _ (List.filter_sublist g)) h

theorem isChain_update {cp : Nat → Nat} {x v : Nat} {l : List Nat} (hx : x ∉ l) (p : Nat) :
    IsChain (Function.update cp x v) p l ↔ IsChain cp p l := by
  induction l generalizing p with
  | nil => simp [IsChain]
  | cons y ys ih =>
    have hy : y ≠ x := fun h => hx (by simp [h])
    have hys : x ∉ ys := fun h => hx (by simp [h])
    simp only [IsChain, Function.update_noteq hy, ih hys]

theorem isChain_chainFrom (s : State) (l : List Nat) (p : Nat) (h0 : 0 ∉ l)
    (h : IsChain s.links.call_parent p l) (fuel : Nat) (hfuel : l.length ≤ fuel) :
    chainFrom s fuel p = some l := by
  induction l generalizing p fuel with
  | nil =>
    simp only [IsChain] at h
    subst h
    cases fuel <;> rfl
  | cons x xs ih =>
    obtain ⟨hp, hrest⟩ := h
    subst hp
    have hp0 : p ≠ 0 := fun h => h0 (by simp [h])
    obtain ⟨q, rfl⟩ := Nat.exists_eq_succ_of_ne_zero hp0
    cases fuel with
    | zero => simp at hfuel
    | succ n =>
      have hxs : 0 ∉ xs := fun h => h0 (by simp [h])
      have := ih _ hxs hrest n (by simpa using hfuel)
      simp only [State.links] at this
      simp [chainFrom, this]

theorem inv_enter_frame (F sf : Nat) (L : Links) (g : List Open)
    (hinv : CactusInv F L g) (hsf : sf ≠ 0) (hnew : sf ∉ enteredFrames g) :
    CactusInv F
      { call_parent := Function.update L.call_parent sf (L.top L.current_fh)
        fh := Function.update L.fh sf L.current_fh
        top := Function.update L.top L.current_fh sf
        current_fh := L.current_fh }
      (⟨sf, .func⟩ :: g) := by
  obtain ⟨hcur, hnd, h0, hfh, hpar, hch⟩ := hinv
  subst hcur
  have hnl : sf ∉ linkedFrames g := fun h => hnew (mem_entered_of_mem_linked h)
  refine ⟨rfl, ?_, ?_, ?_, ?_, ?_⟩
  · simpa [enteredFrames] using ⟨fun o ho => fun h => hnew (by
      simp only [enteredFrames, List.mem_map]; exact ⟨o, ho, h⟩), hnd⟩
  · simp only [enteredFrames, List.map_cons, List.mem_cons, not_or]
    exact ⟨fun h => hsf h.symm, h0⟩
  · intro o ho
    rcases List.mem_cons.mp ho with rfl | ho2
    · simp
    · have hne : o.sf ≠ sf := fun h => hnew (by
        simp only [enteredFrames, List.mem_map]; exact ⟨o, ho2, h⟩)
      simp [Function.update_noteq hne, hfh o ho2]
  · intro o ho p hp
    rcases List.mem_cons.mp ho with rfl | ho2
    · cases hp
    · have hne : o.sf ≠ sf := fun h => hnew (by
        simp only [enteredFrames, List.mem_map]; exact ⟨o, ho2, h⟩)
      simp [Function.update_noteq hne, hpar o ho2 p hp]
  · rw [linkedFrames_cons]
    simp only [Open.linked, if_true, IsChain, Function.update_same, true_and]
    rw [isChain_update hnl]
    exact hch

theorem inv_enter_frame_helper (F sf parent : Nat) (spawner : Bool) (L : Links)
    (g : List Open) (hinv : CactusInv F L g) (hsf : sf ≠ 0) (hnew : sf ∉ enteredFrames g)
    (hparent : (linkedFrames g).head? = some parent) :
    CactusInv F
      { call_parent := if spawner then Function.update L.call_parent sf parent
          else L.call_parent
        fh := Function.update L.fh sf (L.fh parent)
        top := if spawner then Function.update L.top (L.fh parent) sf else L.top
        current_fh := L.current_fh }
      (⟨sf, .helper parent spawner⟩ :: g) := by
  obtain ⟨hcur, hnd, h0, hfh, hpar, hch⟩ := hinv
  subst hcur
  have hnl : sf ∉ linkedFrames g := fun h => hnew (mem_entered_of_mem_linked h)
  have hpl : parent ∈ linkedFrames g := List.mem_of_mem_head? hparent
  have hfhp : L.fh parent = L.current_fh := by
    simp only [linkedFrames, List.mem_map, List.mem_filter] at hpl
    obtain ⟨o, ⟨ho, -⟩, rfl⟩ := hpl
    exact hfh o ho
  have htop : L.top L.current_fh = parent := by
    cases hl : linkedFrames g with
    | nil => rw [hl] at hparent; simp at hparent
    | cons y ys =>
      rw [hl] at hparent hch
      simp only [List.head?_cons, Option.some.injEq] at hparent
      rw [← hparent]
      exact hch.1
  refine ⟨rfl, ?_, ?_, ?_, ?_, ?_⟩
  · simpa [enteredFrames] using ⟨fun o ho => fun h => hnew (by
      simp only [enteredFrames, List.mem_map]; exact ⟨o, ho, h⟩), hnd⟩
  · simp only [enteredFrames, List.map_cons, List.mem_cons, not_or]
    exact ⟨fun h => hsf h.symm, h0⟩
  · intro o ho
    rcases List.mem_cons.mp ho with rfl | ho2
    · simp [hfhp]
    · have hne : o.sf ≠ sf := fun h => hnew (by
        simp only [enteredFrames, List.mem_map]; exact ⟨o, ho2, h⟩)
      simp [Function.update_noteq hne, hfh o ho2]
  · intro o ho p hp
    rcases List.mem_cons.mp ho with rfl | ho2
    · simp only [Shape.helper.injEq] at hp
      obtain ⟨rfl, rfl⟩ := hp
      simp
    · have hne : o.sf ≠ sf := fun h => hnew (by
        simp only [enteredFrames, List.mem_map]; exact ⟨o, ho2, h⟩)
      cases spawner <;> simp [Function.update_noteq hne, hpar o ho2 p hp]
  · rw [linkedFrames_cons]
    cases spawner
    · simpa [Open.linked] using hch
    · simp only [Open.linked, if_true, IsChain, hfhp, Function.update_same, true_and]
      rw [isChain_update hnl, ← htop]
      exact hch

theorem inv_leave (F sf parent : Nat) (linked : Bool) (o : Open) (L : Links)
    (g : List Open) (hinv : CactusInv F L (o :: g)) (ho : o.sf = sf)
    (hl : o.linked = linked) (hp : linked = true → L.call_parent sf = parent) :
    CactusInv F
      { call_parent := Function.update L.call_parent sf 0
        fh := L.fh
        top := if linked then Function.update L.top (L.fh sf) parent else L.top
        current_fh := L.current_fh }
      g := by
  obtain ⟨hcur, hnd, h0, hfh, hpar, hch⟩ := hinv
  subst ho
  have hnd2 : o.sf ∉ enteredFrames g ∧ (enteredFrames g).Nodup := by
    simpa [enteredFrames] using hnd
  have hnl : o.sf ∉ linkedFrames g := fun h => hnd2.1 (mem_entered_of_mem_linked h)
  have hfo : L.fh o.sf = F := hfh o (List.mem_cons_self _ _)
  refine ⟨hcur, hnd2.2, ?_, ?_, ?_, ?_⟩
  · intro h; exact h0 (by simp only [enteredFrames, List.map_cons]; exact List.mem_cons_of_mem _ h)
  · intro x hx; exact hfh x (List.mem_cons_of_mem _ hx)
  · intro x hx p hxp
    have hne : x.sf ≠ o.sf := fun h => hnd2.1 (by
      simp only [enteredFrames, List.mem_map]; exact ⟨x, hx, h⟩)
    simp [Function.update_noteq hne, hpar x (List.mem_cons_of_mem _ hx) p hxp]
  · rw [linkedFrames_cons, hl] at hch
    cases linked
    · simp only [Bool.false_eq_true, if_false] at hch ⊢
      rw [isChain_update hnl]; exact hch
    · simp only [if_true, IsChain] at hch ⊢
      rw [hfo, Function.update_same, isChain_update hnl, ← hp rfl]
      exact hch.2

theorem convention_enter_frame {g g1 : List Open} {sf : Nat}
    (h : convention g (.enter_frame sf) = some g1) :
    sf ≠ 0 ∧ sf ∉ enteredFrames g ∧ g1 = ⟨sf, .func⟩ :: g := by
  simp only [convention] at h
  split at h
  · rename_i hc
    cases h
    exact ⟨hc.1, hc.2, rfl⟩
  · cases h

theorem convention_enter_frame_helper {g g1 : List Open} {sf parent : Nat} {spawner : Bool}
    (h : convention g (.enter_frame_helper sf parent spawner) = some g1) :
    sf ≠ 0 ∧ sf ∉ enteredFrames g ∧ (linkedFrames g).head? = some parent ∧
      g1 = ⟨sf, .helper parent spawner⟩ :: g := by
  simp only [convention] at h
  split at h
  · rename_i hc
    cases h
    exact ⟨hc.1, hc.2.1, hc.2.2, rfl⟩
  · cases h

theorem convention_detach {g g1 : List Open} {sf parent : Nat}
    (h : convention g (.detach sf parent) = some g1) : g1 = g := by
  simp only [convention] at h
  split at h
  · split at h
    · cases h; rfl
    · cases h
  · cases h

theorem convention_leave_frame {g g1 : List Open} {sf : Nat}
    (h : convention g (.leave_frame sf) = some g1) : g = ⟨sf, .func⟩ :: g1 := by
  simp only [convention] at h
  split at h
  · split at h
    · rename_i hc
      cases h; rw [hc]
    · cases h
  · cases h

theorem convention_leave_frame_helper {g g1 : List Open} {sf parent : Nat} {spawner : Bool}
    (h : convention g (.leave_frame_helper sf parent spawner) = some g1) :
    g = ⟨sf, .helper parent spawner⟩ :: g1 := by
  simp only [convention] at h
  split at h
  · split at h
    · rename_i hc
      cases h; rw [hc.1, hc.2.1, hc.2.2]
    · cases h
  · cases h

theorem cactusInv_step (C : Config) (E : Ext) (hE : LinkPreserving E) (F : Nat) (k : Call)
    (c r : Cfg) (g g1 : List Open) (hinv : CactusInv F c.st.links g)
    (hconv : convention g k = some g1) (hrun : k.run C E c = Outcome.ret r) :
    CactusInv F r.st.links g1 := by
  cases k with
  | enter_frame sf =>
    obtain ⟨hsf, hnew, rfl⟩ := convention_enter_frame hconv
    obtain ⟨r2, hr2, hl⟩ := enter_frame_links C E hE sf c
    simp only [Call.run] at hrun
    rw [hr2] at hrun
    cases hrun
    rw [hl]
    exact inv_enter_frame F sf c.st.links g hinv hsf hnew
  | enter_frame_helper sf parent spawner =>
    obtain ⟨hsf, hnew, hparent, rfl⟩ := convention_enter_frame_helper hconv
    have hne : parent ≠ sf := by
      intro h
      subst h
      exact hnew (mem_entered_of_mem_linked (List.mem_of_mem_head? hparent))
    obtain ⟨r2, hr2, hl⟩ := enter_frame_helper_links C sf parent spawner c hne
    simp only [Call.run] at hrun
    rw [hr2] at hrun
    cases hrun
    rw [hl]
    exact inv_enter_frame_helper F sf parent spawner c.st.links g hinv hsf hnew hparent
  | detach sf parent =>
    have hg := convention_detach hconv
    subst hg
    simp only [Call.run] at hrun
    rw [detach_ret_links C E sf parent c r hrun]
    exact hinv
  | leave_frame sf =>
    have hg := convention_leave_frame hconv
    subst hg
    simp only [Call.run] at hrun
    rw [leave_frame_ret_links C E hE sf c r hrun]
    have := inv_leave F sf (c.st.links.call_parent sf) true ⟨sf, .func⟩ c.st.links g1 hinv rfl rfl
      (fun _ => rfl)
    simpa using this
  | leave_frame_helper sf parent spawner =>
    have hg := convention_leave_frame_helper hconv
    subst hg
    simp only [Call.run] at hrun
    rw [leave_frame_helper_ret_links C E hE sf parent spawner c r hrun]
    refine inv_leave F sf parent spawner ⟨sf, .helper parent spawner⟩ c.st.links g1 hinv rfl rfl
      ?_
    intro hs
    subst hs
    exact hinv.2.2.2.2.1 ⟨sf, .helper parent true⟩ (List.mem_cons_self _ _) parent rfl

theorem cactusInv_run (C : Config) (E : Ext) (hE : LinkPreserving E) (F : Nat)
    (calls : List Call) :
    ∀ (c r : Cfg) (g g1 : List Open), CactusInv F c.st.links g →
      conventionAll g calls = some g1 → runCalls C E calls c = Outcome.ret r →
      CactusInv F r.st.links g1 := by
  induction calls with
  | nil =>
    intro c r g g1 hinv hconv hrun
    simp only [conventionAll, Option.some.injEq] at hconv
    simp only [runCalls, Outcome.ret.injEq] at hrun
    subst hconv; subst hrun
    exact hinv
  | cons k ks ih =>
    intro c r g g1 hinv hconv hrun
    simp only [conventionAll] at hconv
    cases hk : convention g k with
    | none => rw [hk] at hconv; cases hconv
    | some g2 =>
      rw [hk] at hconv
      simp only [Option.some_bind] at hconv
      simp only [runCalls] at hrun
      cases hr : k.run C E c with
      | ret c2 =>
        rw [hr] at hrun
        simp only [Outcome.andThen] at hrun
        exact ih c2 r g2 g1 (cactusInv_step C E hE F k c c2 g g2 hinv hk hr) hconv hrun
      | abort c2 => rw [hr] at hrun; cases hrun
      | unwind c2 => rw [hr] at hrun; cases hrun

theorem conventionAll_append (g : List Open) (pre post : List Call) :
    conventionAll g (pre ++ post) =
      (conventionAll g pre).bind fun g1 => conventionAll g1 post := by
  induction pre generalizing g with
  | nil => simp [conventionAll]
  | cons k ks ih =>
    simp only [List.cons_append, conventionAll]
    cases convention g k with
    | none => rfl
    | some g2 => simp [ih]

/-- C11, amended: a sequence of `enter_frame`, `enter_frame_helper`, `detach`,
`leave_frame` and `leave_frame_helper` calls on fiber `F` that respects the
bracketing convention, started in a state whose chain is the linked open
frames `g0`, with scheduler entries that leave the cactus-stack pointers
alone.  After every prefix `pre` of the sequence that has returned, following
`call_parent` from the top frame of `F` reaches `NULL` within as many steps as
there are linked open frames, visits no frame twice, and visits exactly the
frames entered by `enter_frame`, or by `enter_frame_helper` with `spawner`
true, and not yet left, innermost first.  A helper frame entered with
`spawner` false is open but not on the chain. -/
theorem cactus_chain_is_linked_open_frames (C : Config) (E : Ext) (hE : LinkPreserving E)
    (F : Nat) (c0 : Cfg) (g0 : List Open) (h0 : CactusInv F c0.st.links g0)
    (pre post : List Call) (hconv : (conventionAll g0 (pre ++ post)).isSome = true)
    (hrun : (runCalls C E pre c0).returned = true) :
    ∃ g : List Open, conventionAll g0 pre = some g ∧
      (∀ fuel, (linkedFrames g).length ≤ fuel →
        chainFrom (runCalls C E pre c0).cfg.st fuel
          ((runCalls C E pre c0).cfg.st.current_stack_frame F) = some (linkedFrames g)) ∧
      (linkedFrames g).Nodup ∧
      0 ∉ linkedFrames g ∧
      linkedFrames g = (g.filter Open.linked).map Open.sf := by
  rw [conventionAll_append] at hconv
  cases hg : conventionAll g0 pre with
  | none => rw [hg] at hconv; simp at hconv
  | some g =>
    cases hr : runCalls C E pre c0 with
    | ret r =>
      have hinv := cactusInv_run C E hE F pre c0 r g0 g h0 hg hr
      obtain ⟨-, hnd, hz, -, -, hch⟩ := hinv
      have hz2 : 0 ∉ linkedFrames g := fun h => hz (mem_entered_of_mem_linked h)
      refine ⟨g, rfl, ?_, linkedFrames_nodup hnd, hz2, rfl⟩
      intro fuel hfuel
      exact isChain_chainFrom r.st (linkedFrames g) _ hz2 hch fuel hfuel
    | abort r => rw [hr] at hrun; simp [Outcome.returned] at hrun
    | unwind r => rw [hr] at hrun; simp [Outcome.returned] at hrun

/-- C11 fails as stated: after `enter_frame(1)` and
`enter_frame_helper(2, 1, false)`, both within the convention, frames 2 and 1
are entered and not left, yet the `call_parent` chain from the fiber's top
frame is frame 1 alone. -/
theorem helper_without_spawner_is_off_the_chain :
    conventionAll [] [.enter_frame 1, .enter_frame_helper 2 1 false] =
      some [⟨2, .helper 1 false⟩, ⟨1, .func⟩] ∧
    (runCalls debugConfig idleExt [.enter_frame 1, .enter_frame_helper 2 1 false]
      (mkCfg 0)).returned = true ∧
    chainFrom
      (runCalls debugConfig idleExt [.enter_frame 1, .enter_frame_helper 2 1 false]
        (mkCfg 0)).cfg.st 4
      ((runCalls debugConfig idleExt [.enter_frame 1, .enter_frame_helper 2 1 false]
        (mkCfg 0)).cfg.st.current_stack_frame 1) = some [1] ∧
    enteredFrames [⟨2, .helper 1 false⟩, ⟨1, .func⟩] = [2, 1] := by
  decide

/-- C11, amended, at a concrete input: the run `sampleEnter`, to be closed by
`sampleLeave`, from an empty stack on fiber 1. -/
theorem cactus_chain_is_linked_open_frames_witness :
    LinkPreserving idleExt ∧
    CactusInv 1 (mkCfg 0).st.links [] ∧
    (conventionAll [] (sampleEnter ++ sampleLeave)).isSome = true ∧
    (runCalls debugConfig idleExt sampleEnter (mkCfg 0)).returned = true ∧
    ∃ g : List Open, conventionAll [] sampleEnter = some g ∧
      (∀ fuel, (linkedFrames g).length ≤ fuel →
        chainFrom (runCalls debugConfig idleExt sampleEnter (mkCfg 0)).cfg.st fuel
          ((runCalls debugConfig idleExt sampleEnter (mkCfg 0)).cfg.st.current_stack_frame 1) =
            some (linkedFrames g)) ∧
      (linkedFrames g).Nodup ∧
      0 ∉ linkedFrames g ∧
      linkedFrames g = (g.filter Open.linked).map Open.sf :=
  have hE : LinkPreserving idleExt :=
    ⟨fun _ _ => rfl, fun _ _ => rfl, fun _ _ => rfl, fun _ => rfl⟩
  have h0 : CactusInv 1 (mkCfg 0).st.links [] :=
    ⟨rfl, List.nodup_nil, List.not_mem_nil 0, fun _ h => absurd h (List.not_mem_nil _),
      fun _ h => absurd h (List.not_mem_nil _), rfl⟩
  ⟨hE, h0, by decide, by decide,
    cactus_chain_is_linked_open_frames debugConfig idleExt hE 1 (mkCfg 0) [] h0
      sampleEnter sampleLeave (by decide) (by decide)⟩

/-! ## Grainsize: the clamp -/

theorem grainsize_fn_impl_eq (bits nproc n : Nat) (hbits : 12 ≤ bits) (hp : 0 < nproc)
    (h8 : 8 * nproc < 2 ^ 32) (hn : n < 2 ^ bits) :
    __cilkrts_grainsize_fn_impl bits nproc n = some (max 1 (min 2048 (n / (8 * nproc)))) := by
  have hd : 8 * nproc % 2 ^ 32 = 8 * nproc := Nat.mod_eq_of_lt h8
  have hd0 : 8 * nproc ≠ 0 := by omega
  have hq : n / (8 * nproc) % 2 ^ bits = n / (8 * nproc) :=
    Nat.mod_eq_of_lt (lt_of_le_of_lt (Nat.div_le_self _ _) hn)
  have hpow : (2 : Nat) ^ 12 ≤ 2 ^ bits := Nat.pow_le_pow_right (by norm_num) hbits
  have hl : 2048 % 2 ^ bits = 2048 := Nat.mod_eq_of_lt (by omega)
  simp only [__cilkrts_grainsize_fn_impl, hd, hd0, if_false, hq, hl]
  by_cases h1 : n / (8 * nproc) ≤ 1
  · simp only [h1, if_true]
    congr 1
    omega
  · simp only [h1, if_false]
    congr 1
    by_cases h2 : 2048 < n / (8 * nproc)
    · simp only [h2, if_true]; omega
    · simp only [h2, if_false]; omega

/-- C1 fails when `8 * nproc` overflows `unsigned`: with `2^29 + 1` workers
the product wraps to 8, so for `n = 16` the 32-bit function returns 2 where
`clamp(n / (8p), 1, 2048)` is 1; with `2^29` workers the divisor is zero. -/
theorem grainsize_wraps_for_huge_worker_count :
    0 < 536870913 ∧ 16 < 2 ^ 32 ∧
    __cilkrts_cilk_for_grainsize_32 536870913 16 = some 2 ∧
    max 1 (min 2048 (16 / (8 * 536870913))) = 1 ∧
    __cilkrts_cilk_for_grainsize_32 536870912 16 = none := by
  decide

/-- C1, amended: for every worker count `p > 0` whose product `8p` fits the
`unsigned` it is computed in, and every `n` representable in the counter
width, each of the 16-, 32- and 64-bit grainsize functions returns
`clamp(n / (8p), 1, 2048)` with floor division. -/
theorem grainsize_is_clamp_of_floor (nproc n : Nat) (hp : 0 < nproc)
    (h8 : 8 * nproc < 2 ^ 32) :
    (n < 2 ^ 16 →
      __cilkrts_cilk_for_grainsize_16 nproc n = some (max 1 (min 2048 (n / (8 * nproc))))) ∧
    (n < 2 ^ 32 →
      __cilkrts_cilk_for_grainsize_32 nproc n = some (max 1 (min 2048 (n / (8 * nproc))))) ∧
    (n < 2 ^ 64 →
      __cilkrts_cilk_for_grainsize_64 nproc n = some (max 1 (min 2048 (n / (8 * nproc))))) ∧
    (n / (8 * nproc) ≤ 1 → max 1 (min 2048 (n / (8 * nproc))) = 1) ∧
    (2048 < n / (8 * nproc) → max 1 (min 2048 (n / (8 * nproc))) = 2048) ∧
    (1 < n / (8 * nproc) → n / (8 * nproc) ≤ 2048 →
      max 1 (min 2048 (n / (8 * nproc))) = n / (8 * nproc)) := by
  refine ⟨fun hn => grainsize_fn_impl_eq 16 nproc n (by norm_num) hp h8 hn,
    fun hn => grainsize_fn_impl_eq 32 nproc n (by norm_num) hp h8 hn,
    fun hn => grainsize_fn_impl_eq 64 nproc n (by norm_num) hp h8 hn, ?_, ?_, ?_⟩
  · intro h; omega
  · intro h; omega
  · intro h1 h2; omega

/-- C1, amended, at the spec's two scenarios: `p = 4`, `n = 100000` gives 2048
and `p = 4`, `n = 16` gives 1. -/
theorem grainsize_is_clamp_of_floor_witness :
    0 < 4 ∧ 8 * 4 < 2 ^ 32 ∧
    __cilkrts_cilk_for_grainsize_32 4 100000 = some (max 1 (min 2048 (100000 / (8 * 4)))) ∧
    max 1 (min 2048 (100000 / (8 * 4))) = 2048 ∧
    __cilkrts_cilk_for_grainsize_16 4 16 = some (max 1 (min 2048 (16 / (8 * 4)))) ∧
    max 1 (min 2048 (16 / (8 * 4))) = 1 :=
  ⟨by decide, by decide,
    (grainsize_is_clamp_of_floor 4 100000 (by decide) (by decide)).2.1 (by decide),
    by decide,
    (grainsize_is_clamp_of_floor 4 16 (by decide) (by decide)).1 (by decide),
    by decide⟩

/-- C2 fails when `8 * nproc` overflows `unsigned`: with `2^29 + 1` workers
and `n = 16` the 8-bit function returns 2 where `max(1, n / (8p))` is 1. -/
theorem grainsize_8_wraps_for_huge_worker_count :
    0 < 536870913 ∧ 16 < 2 ^ 8 ∧
    __cilkrts_cilk_for_grainsize_8 536870913 16 = some 2 ∧
    max 1 (16 / (8 * 536870913)) = 1 := by
  decide

/-- C2, amended: for every worker count `p > 0` whose product `8p` fits the
`unsigned` it is computed in, and every 8-bit `n`, the 8-bit grainsize
function returns `max(1, n / (8p))` with floor division; no clamp at 2048 is
applied. -/
theorem grainsize_8_is_max_one_floor (nproc n : Nat) (hp : 0 < nproc)
    (h8 : 8 * nproc < 2 ^ 32) (hn : n < 2 ^ 8) :
    __cilkrts_cilk_for_grainsize_8 nproc n = some (max 1 (n / (8 * nproc))) := by
  have hd : 8 * nproc % 2 ^ 32 = 8 * nproc := Nat.mod_eq_of_lt h8
  have hd0 : 8 * nproc ≠ 0 := by omega
  have hq : n / (8 * nproc) % 2 ^ 8 = n / (8 * nproc) :=
    Nat.mod_eq_of_lt (lt_of_le_of_lt (Nat.div_le_self _ _) hn)
  simp only [__cilkrts_cilk_for_grainsize_8, hd, hd0, if_false, hq]
  by_cases h1 : n / (8 * nproc) ≤ 1
  · simp only [h1, if_true]
    congr 1
    omega
  · simp only [h1, if_false]
    congr 1
    omega

/-- C2, amended, at a concrete input: one worker, `n = 200`. -/
theorem grainsize_8_is_max_one_floor_witness :
    0 < 1 ∧ 8 * 1 < 2 ^ 32 ∧ 200 < 2 ^ 8 ∧
    __cilkrts_cilk_for_grainsize_8 1 200 = some (max 1 (200 / (8 * 1))) :=
  ⟨by decide, by decide, by decide,
    grainsize_8_is_max_one_floor 1 200 (by decide) (by decide) (by decide)⟩

/-! ## The THE pop and the push -/

/-- C3: on a DETACHED spawn-helper frame (its magic tag valid),
`leave_frame_helper` returns to its caller.  It stores `tail - 1` into the
deque tail and only then loads `exc`; `head` and `exc` keep their values.
`Cilk_exception_handler` is entered, with a null exception, if and only if the
loaded `exc` is strictly above the new tail; otherwise the call ends in the
popped state with no handler event. -/
theorem leave_frame_helper_decrements_tail_then_checks_exc (C : Config) (E : Ext)
    (sf parent : Nat) (spawner : Bool) (c : Cfg)
    (hM : CHECK_CILK_FRAME_MAGIC C c.st sf = true)
    (hD : hasFlag (c.st.frames sf).flags C.CILK_FRAME_DETACHED = true) :
    ∃ r : Cfg, __cilkrts_leave_frame_helper C E sf parent spawner c = Outcome.ret r ∧
      r.trace = c.trace ++
        ((if C.USE_EXTENSION then [Event.extend_return_from_spawn] else []) ++
          [.load_tail, .store_tail (c.st.w.tail - 1), .load_exc] ++
          (if c.st.w.exc > c.st.w.tail - 1 then [Event.Cilk_exception_handler 0] else [])) ∧
      (helper_pop C sf parent spawner c.st).w.tail = c.st.w.tail - 1 ∧
      (helper_pop C sf parent spawner c.st).w.head = c.st.w.head ∧
      (helper_pop C sf parent spawner c.st).w.exc = c.st.w.exc ∧
      (c.st.w.exc > c.st.w.tail - 1 →
        r.st = E.Cilk_exception_handler 0 (helper_pop C sf parent spawner c.st)) ∧
      (¬ c.st.w.exc > c.st.w.tail - 1 →
        r.st = helper_pop C sf parent spawner c.st ∧
        ∀ exn, Event.Cilk_exception_handler exn ∉ r.trace.drop c.trace.length) := by
  refine ⟨_, leave_frame_helper_eq C E sf parent spawner c (by simp [hM]) (by simp [hD]),
    ?_, rfl, rfl, rfl, ?_, ?_⟩
  · by_cases hlost : c.st.w.exc > c.st.w.tail - 1 <;>
      simp [helper_result, hlost, the_events]
  · intro hlost
    simp [helper_result, hlost]
  · intro hwon
    refine ⟨by simp [helper_result, hwon], ?_⟩
    intro exn
    by_cases hx : C.USE_EXTENSION = true <;> simp [helper_result, hwon, the_events, hx]

/-- C3 at a concrete input: a DETACHED frame, tail at 1, `exc` at 0. -/
theorem leave_frame_helper_decrements_tail_then_checks_exc_witness :
    CHECK_CILK_FRAME_MAGIC debugConfig
      (__cilkrts_detach debugConfig idleExt 1 2 (mkCfg 0)).cfg.st 1 = true ∧
    hasFlag ((__cilkrts_detach debugConfig idleExt 1 2 (mkCfg 0)).cfg.st.frames 1).flags
      debugConfig.CILK_FRAME_DETACHED = true ∧
    (__cilkrts_leave_frame_helper debugConfig idleExt 1 2 true
      (__cilkrts_detach debugConfig idleExt 1 2 (mkCfg 0)).cfg).returned = true :=
  ⟨by decide, by decide, by
    obtain ⟨r, hr, -⟩ := leave_frame_helper_decrements_tail_then_checks_exc debugConfig
      idleExt 1 2 true (__cilkrts_detach debugConfig idleExt 1 2 (mkCfg 0)).cfg
      (by decide) (by decide)
    rw [hr]; rfl⟩

theorem or_and_of_disjoint (f D m : Nat) (h : m &&& D = 0) : (f ||| D) &&& m = f &&& m := by
  apply Nat.eq_of_testBit_eq
  intro i
  have h1 : (m &&& D).testBit i = false := by rw [h]; simp
  rw [Nat.testBit_and] at h1
  rw [Nat.testBit_and, Nat.testBit_or, Nat.testBit_and]
  cases hfi : f.testBit i <;> cases hDi : D.testBit i <;> cases hmi : m.testBit i <;> simp_all

/-- C4: on a frame with a valid magic tag, with the worker's deque having room
(`tail + 1 < ltq_limit`), `detach` returns having or-ed DETACHED into the flags
of `sf` (so every mask disjoint from DETACHED reads as before), written
`parent` into the deque slot at the old tail and advanced `tail` by exactly
one; `head`, `exc` and every other deque slot are unchanged. -/
theorem detach_sets_detached_and_pushes_parent (C : Config) (E : Ext) (sf parent : Nat)
    (c : Cfg) (hM : CHECK_CILK_FRAME_MAGIC C c.st sf = true)
    (hroom : c.st.w.tail + 1 < c.st.w.ltq_limit) :
    ∃ r : Cfg, __cilkrts_detach C E sf parent c = Outcome.ret r ∧
      (r.st.frames sf).flags = (c.st.frames sf).flags ||| C.CILK_FRAME_DETACHED ∧
      (r.st.frames sf).flags &&& C.CILK_FRAME_DETACHED = C.CILK_FRAME_DETACHED ∧
      (∀ m, m &&& C.CILK_FRAME_DETACHED = 0 →
        (r.st.frames sf).flags &&& m = (c.st.frames sf).flags &&& m) ∧
      r.st.ltq c.st.w.tail = parent ∧
      r.st.w.tail = c.st.w.tail + 1 ∧
      r.st.w.head = c.st.w.head ∧
      r.st.w.exc = c.st.w.exc ∧
      (∀ i, i ≠ c.st.w.tail → r.st.ltq i = c.st.ltq i) := by
  obtain ⟨r, hr, hfl, -, -, -, -, -, -, -, htail, hhead, hexc, -, hslot, hother, -⟩ :=
    detach_unfold_ok C E sf parent c (by simp [hM]) (by simp [hroom])
  refine ⟨r, hr, hfl, ?_, ?_, hslot, htail, hhead, hexc, hother⟩
  · rw [hfl]; exact setMask_and _ _
  · intro m hm
    rw [hfl]; exact or_and_of_disjoint _ _ _ hm

/-- C4 at a concrete input: an UNSYNCHED frame, an empty deque of sixteen
slots. -/
theorem detach_sets_detached_and_pushes_parent_witness :
    CHECK_CILK_FRAME_MAGIC debugConfig (mkCfg 2).st 1 = true ∧
    (mkCfg 2).st.w.tail + 1 < (mkCfg 2).st.w.ltq_limit ∧
    (__cilkrts_detach debugConfig idleExt 1 7 (mkCfg 2)).returned = true ∧
    ((__cilkrts_detach debugConfig idleExt 1 7 (mkCfg 2)).cfg.st.frames 1).flags = 6 ∧
    (__cilkrts_detach debugConfig idleExt 1 7 (mkCfg 2)).cfg.st.ltq 0 = 7 :=
  ⟨by decide, by decide, by
    obtain ⟨r, hr, -⟩ := detach_sets_detached_and_pushes_parent debugConfig idleExt 1 7
      (mkCfg 2) (by decide) (by decide)
    rw [hr]; rfl, by decide, by decide⟩

/-! ## Sync on a synched frame -/

/-- C8: when UNSYNCHED is clear in the flags of `sf` and the personality
extension is disabled, `sync` and `sync_nothrow` return at once with the
configuration they were given: no event is emitted (no context capture, no
scheduler wait, no exception check) and the state is unchanged. -/
theorem sync_is_noop_when_synched (C : Config) (E : Ext) (sf : Nat) (c : Cfg)
    (hU : hasFlag (c.st.frames sf).flags C.CILK_FRAME_UNSYNCHED = false)
    (hx : C.USE_EXTENSION = false) :
    __cilk_sync C E sf c = Outcome.ret c ∧ __cilk_sync_nothrow C E sf c = Outcome.ret c := by
  constructor
  · simp [__cilk_sync, hU, hx]
  · simp [__cilk_sync_nothrow, hU, hx]

/-- C8 at the spec's scenario: both spawned children returned before the
sync, so UNSYNCHED is clear (flags `0`). -/
theorem sync_is_noop_when_synched_witness :
    hasFlag ((mkCfg 0).st.frames 1).flags debugConfig.CILK_FRAME_UNSYNCHED = false ∧
    debugConfig.USE_EXTENSION = false ∧
    __cilk_sync debugConfig (stampExt 8) 1 (mkCfg 0) = Outcome.ret (mkCfg 0) ∧
    __cilk_sync_nothrow debugConfig (stampExt 8) 1 (mkCfg 0) = Outcome.ret (mkCfg 0) :=
  ⟨by decide, by decide,
    sync_is_noop_when_synched debugConfig (stampExt 8) 1 (mkCfg 0) (by decide) (by decide)⟩

/-! ## `enter_frame` and the enter/leave round trip -/

/-- C9 fails outside a region: `enter_frame` clears the flags before the
bootstrap handoff, so a flag the handoff sets on the root frame (here LAST,
`128`) is still set when `enter_frame` returns. -/
theorem enter_frame_keeps_flags_set_by_handoff :
    (outsideCfg 0).st.need_to_cilkify = true ∧
    (__cilkrts_enter_frame debugConfig (stampExt 128) 1 (outsideCfg 0)).returned = true ∧
    ((__cilkrts_enter_frame debugConfig (stampExt 128) 1 (outsideCfg 0)).cfg.st.frames 1).flags
      = 128 := by
  decide

/-- C9, amended: `enter_frame(sf)` always returns.  It clears the flags of
`sf` first and then, when no region is active, performs the bootstrap handoff
rooted at `sf`.  On return the magic tag of `sf` is the valid frame magic, `sf`
is attached to the current fiber, `sf.call_parent` is that fiber's previous
top frame and the fiber's top frame is `sf`; the flags of `sf` are zero when a
region was active, and are whatever the handoff left when it was not. -/
theorem enter_frame_effect (C : Config) (E : Ext) (sf : Nat) (c : Cfg) :
    ∃ r : Cfg, __cilkrts_enter_frame C E sf c = Outcome.ret r ∧
      (r.st.frames sf).magic = C.frame_magic ∧
      (r.st.frames sf).fh = (enter_frame_bootstrapped E sf c).st.current_fh ∧
      (r.st.frames sf).call_parent =
        (enter_frame_bootstrapped E sf c).st.current_stack_frame
          (enter_frame_bootstrapped E sf c).st.current_fh ∧
      r.st.current_stack_frame (enter_frame_bootstrapped E sf c).st.current_fh = sf ∧
      (r.st.frames sf).flags = ((enter_frame_bootstrapped E sf c).st.frames sf).flags ∧
      (c.st.need_to_cilkify = false →
        (r.st.frames sf).flags = 0 ∧
        (enter_frame_bootstrapped E sf c).st.current_fh = c.st.current_fh ∧
        (enter_frame_bootstrapped E sf c).st.current_stack_frame = c.st.current_stack_frame ∧
        r.trace = c.trace) ∧
      (c.st.need_to_cilkify = true →
        enter_frame_bootstrapped E sf c =
          cilkify E sf (c.modFrame sf (fun f => { f with flags := 0 })) ∧
        r.trace = c.trace ++ [.setjmp sf, .sysdep_save_fp_ctrl_state sf,
          .internal_invoke_cilkified_root sf, .sanitizer_finish_switch_fiber]) := by
  unfold __cilkrts_enter_frame
  simp only []
  have hb : (if (c.modFrame sf (fun f => { f with flags := 0 })).st.need_to_cilkify then
      cilkify E sf (c.modFrame sf (fun f => { f with flags := 0 }))
      else c.modFrame sf (fun f => { f with flags := 0 })) = enter_frame_bootstrapped E sf c :=
    rfl
  rw [hb]
  have hn : (c.modFrame sf (fun f => { f with flags := 0 })).st.need_to_cilkify
      = c.st.need_to_cilkify := rfl
  refine ⟨_, rfl, ?_, ?_, ?_, ?_, ?_, ?_, ?_⟩
  · simp [Cfg.modFrame, Cfg.setTop, State.modFrame, State.setTop]
  · simp [Cfg.modFrame, Cfg.setTop, State.modFrame, State.setTop]
  · simp [Cfg.modFrame, Cfg.setTop, State.modFrame, State.setTop]
  · simp [Cfg.modFrame, Cfg.setTop, State.modFrame, State.setTop]
  · simp [Cfg.modFrame, Cfg.setTop, State.modFrame, State.setTop]
  · intro hreg
    have hbe : enter_frame_bootstrapped E sf c = c.modFrame sf (fun f => { f with flags := 0 }) := by
      simp [enter_frame_bootstrapped, hn, hreg]
    rw [hbe]
    simp [Cfg.modFrame, Cfg.setTop, State.modFrame, State.setTop]
  · intro hout
    have hbe : enter_frame_bootstrapped E sf c =
        cilkify E sf (c.modFrame sf (fun f => { f with flags := 0 })) := by
      simp [enter_frame_bootstrapped, hn, hout]
    refine ⟨hbe, ?_⟩
    rw [hbe]
    simp [cilkify, Cfg.emit, Cfg.call, Cfg.modFrame, Cfg.setTop]

theorem enter_frame_in_region (C : Config) (E : Ext) (sf : Nat) (c : Cfg)
    (hreg : c.st.need_to_cilkify = false) :
    __cilkrts_enter_frame C E sf c = Outcome.ret
      { st := { c.st with
          frames := Function.update c.st.frames sf
            { flags := 0, magic := C.frame_magic, fh := c.st.current_fh,
              call_parent := c.st.current_stack_frame c.st.current_fh,
              extension := (c.st.frames sf).extension }
          current_stack_frame := Function.update c.st.current_stack_frame c.st.current_fh sf }
        trace := c.trace } := by
  simp [__cilkrts_enter_frame, hreg, Cfg.modFrame, Cfg.setTop, State.modFrame, State.setTop]

theorem leave_frame_zero_flags (C : Config) (E : Ext) (sf : Nat) (c : Cfg)
    (hM : CHECK_CILK_FRAME_MAGIC C c.st sf = true) (hz : (c.st.frames sf).flags = 0) :
    __cilkrts_leave_frame C E sf c = Outcome.ret (leave_frame_popped sf c) := by
  have hL : hasFlag (c.st.frames sf).flags C.CILK_FRAME_LAST = false := by
    rw [hz]; exact hasFlag_zero _
  have hh : leave_frame_handoff C E sf c = leave_frame_popped sf c := by
    simp [leave_frame_handoff, hL]
  rw [leave_frame_unfold]
  simp [CILK_ASSERT, hM, hh, leave_frame_popped_flags, hz]

/-- C10: for a frame with a valid magic tag, and scheduler entries that leave
the cactus-stack pointers alone, `leave_frame(sf)` ends (whether it returns or
dies in an assertion) with the top frame of the fiber of `sf` set to the old
`sf.call_parent`, `sf.call_parent` cleared, and every other frame's
`call_parent` and every other fiber's top frame unchanged.  Inside an active
region `enter_frame(sf)` followed by `leave_frame(sf)` returns, restores the
top frame of the current fiber to its value before `enter_frame`, and emits no
event: neither the uncilkify handoff nor `Cilk_set_return` is invoked. -/
theorem leave_frame_pops_and_undoes_enter_frame (C : Config) (E : Ext)
    (hE : LinkPreserving E) (sf : Nat) (c : Cfg)
    (hM : CHECK_CILK_FRAME_MAGIC C c.st sf = true) :
    (__cilkrts_leave_frame C E sf c).cfg.st.current_stack_frame (c.st.frames sf).fh =
      (c.st.frames sf).call_parent ∧
    ((__cilkrts_leave_frame C E sf c).cfg.st.frames sf).call_parent = 0 ∧
    (∀ x, x ≠ sf → ((__cilkrts_leave_frame C E sf c).cfg.st.frames x).call_parent =
      (c.st.frames x).call_parent) ∧
    (∀ fh, fh ≠ (c.st.frames sf).fh →
      (__cilkrts_leave_frame C E sf c).cfg.st.current_stack_frame fh =
        c.st.current_stack_frame fh) ∧
    (c.st.need_to_cilkify = false →
      ∃ e r : Cfg, __cilkrts_enter_frame C E sf c = Outcome.ret e ∧
        __cilkrts_leave_frame C E sf e = Outcome.ret r ∧
        r.st.current_stack_frame c.st.current_fh = c.st.current_stack_frame c.st.current_fh ∧
        (r.st.frames sf).flags = 0 ∧
        r.trace = c.trace) := by
  have hlinks : (__cilkrts_leave_frame C E sf c).cfg.st.links =
      (leave_frame_popped sf c).st.links := by
    rw [← leave_frame_handoff_links C E hE, leave_frame_unfold]
    unfold CILK_ASSERT
    simp only [hM, Bool.not_true, Bool.and_false, Bool.false_eq_true, if_false]
    split
    · rfl
    · split
      · rfl
      · split
        · split
          · simp only [Outcome.cfg, Cfg.call, Cfg.emit]
            rw [hE.2.2.2]
          · simp only [Outcome.cfg, Cfg.call, Cfg.emit]
            rw [hE.2.2.2]
        · rfl
  rw [leave_frame_popped_links] at hlinks
  have hcp := congrArg Links.call_parent hlinks
  have htop := congrArg Links.top hlinks
  simp only [State.links] at hcp htop
  refine ⟨?_, ?_, ?_, ?_, ?_⟩
  · rw [htop]; simp
  · have := congrFun hcp sf
    simpa using this
  · intro x hx
    have := congrFun hcp x
    simpa [Function.update, hx] using this
  · intro fh hfh
    rw [htop]; simp [Function.update, hfh]
  · intro hreg
    obtain ⟨e, he, heq⟩ : ∃ e : Cfg, __cilkrts_enter_frame C E sf c = Outcome.ret e ∧
        e = { st := { c.st with
                frames := Function.update c.st.frames sf
                  { flags := 0, magic := C.frame_magic, fh := c.st.current_fh,
                    call_parent := c.st.current_stack_frame c.st.current_fh,
                    extension := (c.st.frames sf).extension }
                current_stack_frame :=
                  Function.update c.st.current_stack_frame c.st.current_fh sf }
              trace := c.trace } :=
      ⟨_, enter_frame_in_region C E sf c hreg, rfl⟩
    have h1 : CHECK_CILK_FRAME_MAGIC C e.st sf = true := by
      rw [heq]; simp [CHECK_CILK_FRAME_MAGIC]
    have h2 : (e.st.frames sf).flags = 0 := by
      rw [heq]; simp
    refine ⟨e, leave_frame_popped sf e, he, leave_frame_zero_flags C E sf e h1 h2, ?_, ?_, ?_⟩
    · rw [heq]
      simp [leave_frame_popped, Cfg.modFrame, Cfg.setTop, State.modFrame, State.setTop]
    · rw [leave_frame_popped_flags]; exact h2
    · rw [leave_frame_popped_trace, heq]

/-- C10 at a concrete input: a fresh frame inside a region. -/
theorem leave_frame_pops_and_undoes_enter_frame_witness :
    LinkPreserving idleExt ∧
    CHECK_CILK_FRAME_MAGIC debugConfig (mkCfg 0).st 1 = true ∧
    (mkCfg 0).st.need_to_cilkify = false ∧
    ∃ e r : Cfg, __cilkrts_enter_frame debugConfig idleExt 1 (mkCfg 0) = Outcome.ret e ∧
      __cilkrts_leave_frame debugConfig idleExt 1 e = Outcome.ret r ∧
      r.st.current_stack_frame (mkCfg 0).st.current_fh =
        (mkCfg 0).st.current_stack_frame (mkCfg 0).st.current_fh ∧
      (r.st.frames 1).flags = 0 ∧
      r.trace = (mkCfg 0).trace :=
  have hE : LinkPreserving idleExt :=
    ⟨fun _ _ => rfl, fun _ _ => rfl, fun _ _ => rfl, fun _ => rfl⟩
  ⟨hE, by decide, by decide,
    (leave_frame_pops_and_undoes_enter_frame debugConfig idleExt hE 1 (mkCfg 0)
      (by decide)).2.2.2.2 (by decide)⟩

/-! ## Hyperobject lookup -/

/-- C6: outside a parallel region (`__cilkrts_need_to_cilkify` set),
`reducer_lookup` returns the key itself whatever the table holds, leaves the
table and the record of identity-initialised views as they were, and does so
again on every repeated call. -/
theorem reducer_lookup_outside_region_is_key (alloc : Nat → Nat → Nat)
    (key size identity_ptr reduce_ptr : Nat) (h : HyperState)
    (hout : h.need_to_cilkify = true) :
    __cilkrts_reducer_lookup alloc key size identity_ptr reduce_ptr h = (key, h) ∧
    (∀ t : local_hyper_table,
      (__cilkrts_reducer_lookup alloc key size identity_ptr reduce_ptr
        { h with table := t }).1 = key) ∧
    (__cilkrts_reducer_lookup alloc key size identity_ptr reduce_ptr h).2.table = h.table ∧
    (__cilkrts_reducer_lookup alloc key size identity_ptr reduce_ptr h).2.inits = h.inits ∧
    __cilkrts_reducer_lookup alloc key size identity_ptr reduce_ptr
      (__cilkrts_reducer_lookup alloc key size identity_ptr reduce_ptr h).2 = (key, h) := by
  have h1 : __cilkrts_reducer_lookup alloc key size identity_ptr reduce_ptr h = (key, h) := by
    simp [__cilkrts_reducer_lookup, hout]
  refine ⟨h1, ?_, ?_, ?_, ?_⟩
  · intro t
    simp [__cilkrts_reducer_lookup, hout]
  · rw [h1]
  · rw [h1]
  · rw [h1]; exact h1

/-- C6 at a concrete input: key 7 is not in the table, and no view is made. -/
theorem reducer_lookup_outside_region_is_key_witness :
    ({ need_to_cilkify := true, table := sampleTable, inits := [] } : HyperState).need_to_cilkify
      = true ∧
    __cilkrts_reducer_lookup sampleAlloc 7 8 1 2
        { need_to_cilkify := true, table := sampleTable, inits := [] } =
      (7, { need_to_cilkify := true, table := sampleTable, inits := [] }) :=
  ⟨rfl,
    (reducer_lookup_outside_region_is_key sampleAlloc 7 8 1 2
      { need_to_cilkify := true, table := sampleTable, inits := [] } rfl).1⟩

/-- C7: inside a region, the first `reducer_lookup` of a key absent from the
worker's table returns a new view, registers it under the key with the given
reduce function, and records one identity initialisation of the requested size
for it.  A second lookup of the same key on the resulting table, whatever its
other arguments, returns the identical view and changes nothing.  In general a
lookup that hits returns the stored view and leaves the state unchanged. -/
theorem reducer_lookup_inserts_once_then_hits (alloc : Nat → Nat → Nat)
    (key size identity_ptr reduce_ptr : Nat) (h : HyperState)
    (hin : h.need_to_cilkify = false) (hmiss : find_hyperobject h.table key = none) :
    find_hyperobject (__cilkrts_reducer_lookup alloc key size identity_ptr reduce_ptr h).2.table
        key =
      some { key := key
             view := (__cilkrts_reducer_lookup alloc key size identity_ptr reduce_ptr h).1
             reduce_fn := reduce_ptr } ∧
    (__cilkrts_reducer_lookup alloc key size identity_ptr reduce_ptr h).2.inits =
      h.inits ++
        [{ view := (__cilkrts_reducer_lookup alloc key size identity_ptr reduce_ptr h).1
           size := size, identity_fn := identity_ptr }] ∧
    (∀ size2 identity2 reduce2,
      __cilkrts_reducer_lookup alloc key size2 identity2 reduce2
          (__cilkrts_reducer_lookup alloc key size identity_ptr reduce_ptr h).2 =
        ((__cilkrts_reducer_lookup alloc key size identity_ptr reduce_ptr h).1,
          (__cilkrts_reducer_lookup alloc key size identity_ptr reduce_ptr h).2)) ∧
    (∀ (g : HyperState) (k s i r : Nat) (b : bucket), g.need_to_cilkify = false →
      find_hyperobject g.table k = some b →
      __cilkrts_reducer_lookup alloc k s i r g = (b.view, g)) := by
  have h1 : __cilkrts_reducer_lookup alloc key size identity_ptr reduce_ptr h =
      __cilkrts_insert_new_view alloc h key size identity_ptr reduce_ptr := by
    simp [__cilkrts_reducer_lookup, hin, hmiss]
  have hhit : ∀ (g : HyperState) (k s i r : Nat) (b : bucket), g.need_to_cilkify = false →
      find_hyperobject g.table k = some b →
      __cilkrts_reducer_lookup alloc k s i r g = (b.view, g) := by
    intro g k s i r b hg hb
    simp [__cilkrts_reducer_lookup, hg, hb]
  have hfind : find_hyperobject
      (__cilkrts_insert_new_view alloc h key size identity_ptr reduce_ptr).2.table key =
      some { key := key
             view := (__cilkrts_insert_new_view alloc h key size identity_ptr reduce_ptr).1
             reduce_fn := reduce_ptr } := by
    simp [__cilkrts_insert_new_view, find_hyperobject]
  refine ⟨?_, ?_, ?_, hhit⟩
  · rw [h1]; exact hfind
  · rw [h1]; simp [__cilkrts_insert_new_view]
  · intro size2 identity2 reduce2
    rw [h1]
    exact hhit _ key size2 identity2 reduce2 _ (by simp [__cilkrts_insert_new_view, hin]) hfind

/-- C7 at a concrete input: key 7 is looked up in a table that holds key 100
only. -/
theorem reducer_lookup_inserts_once_then_hits_witness :
    ({ need_to_cilkify := false, table := sampleTable, inits := [] } : HyperState).need_to_cilkify
      = false ∧
    find_hyperobject sampleTable 7 = none ∧
    (__cilkrts_reducer_lookup sampleAlloc 7 8 1 2
      { need_to_cilkify := false, table := sampleTable, inits := [] }).1 = 1000 ∧
    (∀ size2 identity2 reduce2,
      __cilkrts_reducer_lookup sampleAlloc 7 size2 identity2 reduce2
          (__cilkrts_reducer_lookup sampleAlloc 7 8 1 2
            { need_to_cilkify := false, table := sampleTable, inits := [] }).2 =
        ((__cilkrts_reducer_lookup sampleAlloc 7 8 1 2
            { need_to_cilkify := false, table := sampleTable, inits := [] }).1,
          (__cilkrts_reducer_lookup sampleAlloc 7 8 1 2
            { need_to_cilkify := false, table := sampleTable, inits := [] }).2)) :=
  ⟨rfl, by decide, by decide,
    (reducer_lookup_inserts_once_then_hits sampleAlloc 7 8 1 2
      { need_to_cilkify := false, table := sampleTable, inits := [] } rfl (by decide)).2.2.1⟩

/-! ## `pause_frame` before the detach -/

theorem pause_frame_not_detached_eq (C : Config) (E : Ext) (sf parent exn : Nat)
    (spawner : Bool) (c : Cfg)
    (hM : (C.CILK_DEBUG &&
      !CHECK_CILK_FRAME_MAGIC C (pause_frame_entered E sf c).st sf) = false)
    (hD : hasFlag ((pause_frame_entered E sf c).st.frames sf).flags
      C.CILK_FRAME_DETACHED = false) :
    __cilkrts_pause_frame C E sf parent exn spawner c =
      Outcome.ret (pause_frame_popped E sf parent spawner c) := by
  simp only [pause_frame_entered, Cfg.emit, Cfg.call] at hM hD
  simp only [__cilkrts_pause_frame, CILK_ASSERT, Cfg.emit, Cfg.call, hM, Bool.false_eq_true,
    if_false]
  cases spawner <;>
    simp [hD, pause_frame_popped, pause_frame_entered, Cfg.emit, Cfg.call, Cfg.modFrame,
      Cfg.setTop, State.modFrame, State.setTop]

/-- C21: once `__cilkrts_cleanup_fiber` has handed control back, `pause_frame`
on a frame with a valid magic tag and DETACHED clear returns having done the
cactus-stack pop and nothing else.  The worker (its deque `tail`, `head` and
`exc` included) and the deque slots are as `__cilkrts_cleanup_fiber` left
them, the flags of `sf` are unchanged, no other frame is written, the fiber's
top frame is `parent` when `spawner` and untouched otherwise, and
`sf.call_parent` is cleared.  The only events are `setjmp` and
`__cilkrts_cleanup_fiber`: the tail is neither loaded nor stored, `exc` is
not loaded, and `Cilk_exception_handler` is not entered. -/
theorem pause_frame_skips_the_protocol_before_detach (C : Config) (E : Ext)
    (sf parent exn : Nat) (spawner : Bool) (c : Cfg)
    (hM : CHECK_CILK_FRAME_MAGIC C (pause_frame_entered E sf c).st sf = true)
    (hD : hasFlag ((pause_frame_entered E sf c).st.frames sf).flags
      C.CILK_FRAME_DETACHED = false) :
    ∃ r : Cfg, __cilkrts_pause_frame C E sf parent exn spawner c = Outcome.ret r ∧
      r.st.w = (pause_frame_entered E sf c).st.w ∧
      r.st.ltq = (pause_frame_entered E sf c).st.ltq ∧
      (r.st.frames sf).flags = ((pause_frame_entered E sf c).st.frames sf).flags ∧
      (r.st.frames sf).call_parent = 0 ∧
      (∀ x, x ≠ sf → r.st.frames x = (pause_frame_entered E sf c).st.frames x) ∧
      (spawner = true →
        r.st.current_stack_frame ((pause_frame_entered E sf c).st.frames sf).fh = parent ∧
        ∀ fh, fh ≠ ((pause_frame_entered E sf c).st.frames sf).fh →
          r.st.current_stack_frame fh =
            (pause_frame_entered E sf c).st.current_stack_frame fh) ∧
      (spawner = false →
        r.st.current_stack_frame = (pause_frame_entered E sf c).st.current_stack_frame) ∧
      r.trace = c.trace ++ [.setjmp sf, .cleanup_fiber sf 1] ∧
      Event.load_tail ∉ r.trace.drop c.trace.length ∧
      Event.load_exc ∉ r.trace.drop c.trace.length ∧
      (∀ v, Event.store_tail v ∉ r.trace.drop c.trace.length) ∧
      (∀ e, Event.Cilk_exception_handler e ∉ r.trace.drop c.trace.length) := by
  refine ⟨_, pause_frame_not_detached_eq C E sf parent exn spawner c (by simp [hM]) hD,
    ?_, ?_, ?_, ?_, ?_, ?_, ?_, ?_, ?_, ?_, ?_, ?_⟩
  · cases spawner <;> rfl
  · cases spawner <;> rfl
  · cases spawner <;>
      simp [pause_frame_popped, Cfg.modFrame, Cfg.setTop, State.modFrame, State.setTop]
  · cases spawner <;>
      simp [pause_frame_popped, Cfg.modFrame, Cfg.setTop, State.modFrame, State.setTop]
  · intro x hx
    cases spawner <;>
      simp [pause_frame_popped, Cfg.modFrame, Cfg.setTop, State.modFrame, State.setTop,
        Function.update, hx]
  · intro hs
    subst hs
    refine ⟨?_, ?_⟩
    · simp [pause_frame_popped, Cfg.modFrame, Cfg.setTop, State.modFrame, State.setTop]
    · intro fh hfh
      simp [pause_frame_popped, Cfg.modFrame, Cfg.setTop, State.modFrame, State.setTop,
        Function.update, hfh]
  · intro hs
    subst hs
    rfl
  · cases spawner <;> rfl
  · cases spawner <;>
      simp [pause_frame_popped, pause_frame_entered, Cfg.modFrame, Cfg.setTop, Cfg.emit,
        Cfg.call]
  · cases spawner <;>
      simp [pause_frame_popped, pause_frame_entered, Cfg.modFrame, Cfg.setTop, Cfg.emit,
        Cfg.call]
  · intro v
    cases spawner <;>
      simp [pause_frame_popped, pause_frame_entered, Cfg.modFrame, Cfg.setTop, Cfg.emit,
        Cfg.call]
  · intro e
    cases spawner <;>
      simp [pause_frame_popped, pause_frame_entered, Cfg.modFrame, Cfg.setTop, Cfg.emit,
        Cfg.call]

/-- C21 at a concrete input: helper frame 2, entered with parent 1 and not yet
detached, is paused with a pending exception. -/
theorem pause_frame_skips_the_protocol_before_detach_witness :
    CHECK_CILK_FRAME_MAGIC debugConfig (pause_frame_entered idleExt 2 helperEnteredCfg).st 2
      = true ∧
    hasFlag ((pause_frame_entered idleExt 2 helperEnteredCfg).st.frames 2).flags
      debugConfig.CILK_FRAME_DETACHED = false ∧
    (__cilkrts_pause_frame debugConfig idleExt 2 1 7 true helperEnteredCfg).returned = true ∧
    (__cilkrts_pause_frame debugConfig idleExt 2 1 7 true helperEnteredCfg).cfg.st.w.tail =
      helperEnteredCfg.st.w.tail ∧
    (__cilkrts_pause_frame debugConfig idleExt 2 1 7 true helperEnteredCfg).cfg.st.current_stack_frame 1
      = 1 ∧
    helperEnteredCfg.st.current_stack_frame 1 = 2 :=
  ⟨by decide, by decide, by
    obtain ⟨r, hr, -⟩ := pause_frame_skips_the_protocol_before_detach debugConfig idleExt
      2 1 7 true helperEnteredCfg (by decide) (by decide)
    rw [hr]; rfl, by decide, by decide, by decide⟩

/-! ## The 8-bit grainsize and the generic body -/

theorem grainsize_8_eq (nproc n : Nat) (hp : 0 < nproc) (h8 : 8 * nproc < 2 ^ 32)
    (hn : n < 2 ^ 8) :
    __cilkrts_cilk_for_grainsize_8 nproc n = some (max 1 (n / (8 * nproc))) := by
  have hd : 8 * nproc % 2 ^ 32 = 8 * nproc := Nat.mod_eq_of_lt h8
  have hd0 : 8 * nproc ≠ 0 := by omega
  have hq : n / (8 * nproc) % 2 ^ 8 = n / (8 * nproc) :=
    Nat.mod_eq_of_lt (lt_of_le_of_lt (Nat.div_le_self _ _) hn)
  simp only [__cilkrts_cilk_for_grainsize_8, hd, hd0, if_false, hq]
  by_cases h1 : n / (8 * nproc) ≤ 1
  · simp only [h1, if_true]
    congr 1
    omega
  · simp only [h1, if_false]
    congr 1
    omega

theorem grainsize_quotient_le_31 (nproc n : Nat) (hp : 0 < nproc) (hn : n < 2 ^ 8) :
    n / (8 * nproc) ≤ 31 := by
  have h1 : n / (8 * nproc) ≤ n / 8 := Nat.div_le_div_left (by omega) (by norm_num)
  have h2 : n / 8 ≤ 31 := by omega
  exact le_trans h1 h2

theorem grainsize_fn_impl_at_8 (nproc n : Nat) (hp : 0 < nproc) (h8 : 8 * nproc < 2 ^ 32)
    (hn : n < 2 ^ 8) :
    __cilkrts_grainsize_fn_impl 8 nproc n = some (if n / (8 * nproc) ≤ 1 then 1 else 0) := by
  have hd : 8 * nproc % 2 ^ 32 = 8 * nproc := Nat.mod_eq_of_lt h8
  have hd0 : 8 * nproc ≠ 0 := by omega
  have hq : n / (8 * nproc) % 2 ^ 8 = n / (8 * nproc) :=
    Nat.mod_eq_of_lt (lt_of_le_of_lt (Nat.div_le_self _ _) hn)
  have hl : 2048 % 2 ^ 8 = 0 := by norm_num
  simp only [__cilkrts_grainsize_fn_impl, hd, hd0, if_false, hq, hl]
  by_cases h1 : n / (8 * nproc) ≤ 1
  · simp only [h1, if_true]
  · have h2 : 0 < n / (8 * nproc) := by omega
    simp only [h1, if_false, h2, if_true]

/-- C22 fails in its last part: with one worker and `n = 16` the 8-bit
function returns 2, while the generic body instantiated at `uint8_t` returns
0, its constant 2048 having become 0 in eight bits. -/
theorem generic_body_at_8_bits_returns_zero :
    0 < 1 ∧ 8 * 1 < 2 ^ 32 ∧ 16 < 2 ^ 8 ∧
    __cilkrts_cilk_for_grainsize_8 1 16 = some 2 ∧
    __cilkrts_grainsize_fn_impl 8 1 16 = some 0 ∧
    max 1 (min 2048 (16 / (8 * 1))) = 2 := by
  decide

/-- C22, amended: for every 8-bit `n` and every worker count `p > 0` with `8p`
not overflowing, the 8-bit grainsize function returns a value of at most 31
that equals `clamp(n / (8p), 1, 2048)`, and so agrees with the generic body
instantiated at any width that holds 2048 (twelve bits or more, the 16-, 32-
and 64-bit functions among them): the omitted upper clamp is never
observable.  The generic body instantiated at eight bits is a different
function: 2048 becomes 0 there, and it returns 0 whenever `n / (8p)` is at
least 2. -/
theorem grainsize_8_needs_no_upper_clamp (nproc n : Nat) (hp : 0 < nproc)
    (h8 : 8 * nproc < 2 ^ 32) (hn : n < 2 ^ 8) :
    __cilkrts_cilk_for_grainsize_8 nproc n = some (max 1 (min 2048 (n / (8 * nproc)))) ∧
    max 1 (min 2048 (n / (8 * nproc))) ≤ 31 ∧
    (∀ bits, 12 ≤ bits →
      __cilkrts_grainsize_fn_impl bits nproc n = __cilkrts_cilk_for_grainsize_8 nproc n) ∧
    __cilkrts_cilk_for_grainsize_16 nproc n = __cilkrts_cilk_for_grainsize_8 nproc n ∧
    __cilkrts_cilk_for_grainsize_32 nproc n = __cilkrts_cilk_for_grainsize_8 nproc n ∧
    __cilkrts_cilk_for_grainsize_64 nproc n = __cilkrts_cilk_for_grainsize_8 nproc n ∧
    __cilkrts_grainsize_fn_impl 8 nproc n = some (if n / (8 * nproc) ≤ 1 then 1 else 0) ∧
    (2 ≤ n / (8 * nproc) →
      __cilkrts_grainsize_fn_impl 8 nproc n ≠ __cilkrts_cilk_for_grainsize_8 nproc n) := by
  have hq := grainsize_quotient_le_31 nproc n hp hn
  have hmin : min 2048 (n / (8 * nproc)) = n / (8 * nproc) := by omega
  have h8eq : __cilkrts_cilk_for_grainsize_8 nproc n =
      some (max 1 (min 2048 (n / (8 * nproc)))) := by
    rw [hmin]; exact grainsize_8_eq nproc n hp h8 hn
  have hgen : ∀ bits, 12 ≤ bits →
      __cilkrts_grainsize_fn_impl bits nproc n = __cilkrts_cilk_for_grainsize_8 nproc n := by
    intro bits hbits
    have hpow : (2 : Nat) ^ 8 ≤ 2 ^ bits := Nat.pow_le_pow_right (by norm_num) (by omega)
    rw [h8eq]
    exact grainsize_fn_impl_eq bits nproc n hbits hp h8 (lt_of_lt_of_le hn hpow)
  have hat8 := grainsize_fn_impl_at_8 nproc n hp h8 hn
  refine ⟨h8eq, by omega, hgen, hgen 16 (by norm_num), hgen 32 (by norm_num),
    hgen 64 (by norm_num), hat8, ?_⟩
  intro h2
  rw [hat8, h8eq]
  have h1 : ¬ n / (8 * nproc) ≤ 1 := by omega
  simp only [h1, if_false, ne_eq, Option.some.injEq]
  omega

/-- C22, amended, at a concrete input: one worker, `n = 255`, the largest
8-bit count. -/
theorem grainsize_8_needs_no_upper_clamp_witness :
    0 < 1 ∧ 8 * 1 < 2 ^ 32 ∧ 255 < 2 ^ 8 ∧
    __cilkrts_cilk_for_grainsize_8 1 255 = some (max 1 (min 2048 (255 / (8 * 1)))) ∧
    max 1 (min 2048 (255 / (8 * 1))) ≤ 31 ∧
    __cilkrts_cilk_for_grainsize_16 1 255 = __cilkrts_cilk_for_grainsize_8 1 255 :=
  ⟨by decide, by decide, by decide,
    (grainsize_8_needs_no_upper_clamp 1 255 (by decide) (by decide) (by decide)).1,
    (grainsize_8_needs_no_upper_clamp 1 255 (by decide) (by decide) (by decide)).2.1,
    (grainsize_8_needs_no_upper_clamp 1 255 (by decide) (by decide) (by decide)).2.2.2.1⟩

end Cheetah
